import Mathlib

/-!
Formal model of the xDB backend managers (src-tauri/src):
connection-handle registries (redis_manager, mysql_manager, sqlite_manager,
memcached_manager), value normalization to JSON, SQL read/write
classification, the memcached line-protocol key enumeration, and the redis
pipeline detail parser.  External library functions used by the source
(UTF-8 decoding from Rust std, integer parsing, the redis crate decoders)
are embedded as executable Lean functions; network effects are abstracted
into explicit state passing and oracle parameters.
-/

namespace XDb

/-! ## UTF-8 decoding (models Rust std `str::from_utf8` / `String::from_utf8_lossy`)

Bytes are `Nat` (values < 256 in all uses).  `utf8Lead b` classifies a lead
byte, returning `(extra, lo, hi)`: the number of continuation bytes and the
valid range of the first continuation byte (further continuations are in
0x80..0xBF); `none` for an invalid lead byte.  The ranges are exactly the
ones Rust's validator accepts (rejecting overlongs and surrogates). -/

def utf8Lead (b : Nat) : Option (Nat × Nat × Nat) :=
  if b < 0x80 then some (0, 0, 0)
  else if 0xC2 ≤ b ∧ b ≤ 0xDF then some (1, 0x80, 0xBF)
  else if b = 0xE0 then some (2, 0xA0, 0xBF)
  else if 0xE1 ≤ b ∧ b ≤ 0xEC then some (2, 0x80, 0xBF)
  else if b = 0xED then some (2, 0x80, 0x9F)
  else if 0xEE ≤ b ∧ b ≤ 0xEF then some (2, 0x80, 0xBF)
  else if b = 0xF0 then some (3, 0x90, 0xBF)
  else if 0xF1 ≤ b ∧ b ≤ 0xF3 then some (3, 0x80, 0xBF)
  else if b = 0xF4 then some (3, 0x80, 0x8F)
  else none

/-- Grab `n` continuation bytes, the first in `[lo, hi]`, the rest in
0x80..0xBF; returns the consumed bytes and the remainder. -/
def utf8Grab : Nat → Nat → Nat → List Nat → Option (List Nat × List Nat)
  | 0, _, _, bs => some ([], bs)
  | _ + 1, _, _, [] => none
  | n + 1, lo, hi, b :: bs =>
    if lo ≤ b ∧ b ≤ hi then
      match utf8Grab n 0x80 0xBF bs with
      | some (cs, rest) => some (b :: cs, rest)
      | none => none
    else none

/-- How many leading bytes of `bs` match the continuation pattern (first in
`[lo, hi]`, rest in 0x80..0xBF), up to `n`: the length of the maximal
subpart consumed by a failed sequence (WHATWG / Rust lossy decoding). -/
def utf8Matched : Nat → Nat → Nat → List Nat → Nat
  | 0, _, _, _ => 0
  | _ + 1, _, _, [] => 0
  | n + 1, lo, hi, b :: bs =>
    if lo ≤ b ∧ b ≤ hi then utf8Matched n 0x80 0xBF bs + 1 else 0

/-- Assemble the scalar value from a lead byte and its continuation bytes. -/
def utf8Assemble (b : Nat) (cs : List Nat) : Nat :=
  let lead := if b < 0x80 then b
    else if b ≤ 0xDF then b - 0xC0
    else if b ≤ 0xEF then b - 0xE0
    else b - 0xF0
  cs.foldl (fun acc c => acc * 64 + (c - 0x80)) lead

/-- Strict UTF-8 decoding with explicit fuel (each step consumes at least
one byte, so fuel = input length always suffices). -/
def utf8DecodeAux : Nat → List Nat → Option (List Char)
  | _, [] => some []
  | 0, _ :: _ => none
  | fuel + 1, b :: rest =>
    match utf8Lead b with
    | none => none
    | some (extra, lo, hi) =>
      match utf8Grab extra lo hi rest with
      | none => none
      | some (cs, rest2) =>
        match utf8DecodeAux fuel rest2 with
        | some tail => some (Char.ofNat (utf8Assemble b cs) :: tail)
        | none => none

/-- Models Rust `String::from_utf8` / `str::from_utf8`: `none` on any
ill-formed byte sequence. -/
def utf8Decode (bs : List Nat) : Option String :=
  (utf8DecodeAux bs.length bs).map fun cs => ⟨cs⟩

/-- Lossy UTF-8 decoding: each maximal subpart of an ill-formed sequence is
replaced by one U+FFFD, as Rust `String::from_utf8_lossy` does. -/
def utf8LossyAux : Nat → List Nat → List Char
  | _, [] => []
  | 0, _ :: _ => []
  | fuel + 1, b :: rest =>
    match utf8Lead b with
    | none => Char.ofNat 0xFFFD :: utf8LossyAux fuel rest
    | some (extra, lo, hi) =>
      match utf8Grab extra lo hi rest with
      | some (cs, rest2) => Char.ofNat (utf8Assemble b cs) :: utf8LossyAux fuel rest2
      | none =>
        Char.ofNat 0xFFFD :: utf8LossyAux fuel (rest.drop (utf8Matched extra lo hi rest))

/-- Models Rust `String::from_utf8_lossy` (always succeeds). -/
def utf8Lossy (bs : List Nat) : String :=
  ⟨utf8LossyAux bs.length bs⟩

/-! ## Rust string primitives

Charwise models of the `str` methods the source uses (`trim`,
`to_uppercase`, `to_lowercase`, `starts_with`, `split`, `contains`).  The
inputs in this program are ASCII, where Rust's Unicode case mapping agrees
with `Char.toUpper`/`Char.toLower`. -/

/-- Models `str::trim`. -/
def rustTrim (s : String) : String :=
  ⟨((s.data.dropWhile Char.isWhitespace).reverse.dropWhile Char.isWhitespace).reverse⟩

/-- Models `str::to_uppercase`. -/
def rustToUpper (s : String) : String :=
  ⟨s.data.map Char.toUpper⟩

/-- Models `str::to_lowercase`. -/
def rustToLower (s : String) : String :=
  ⟨s.data.map Char.toLower⟩

/-- Models `str::starts_with(&str)`. -/
def rustStartsWith (s pat : String) : Bool :=
  pat.data.isPrefixOf s.data

/-- Split a character list on a separator character. -/
def splitChars (sep : Char) : List Char → List (List Char)
  | [] => [[]]
  | c :: rest =>
    if c = sep then [] :: splitChars sep rest
    else
      match splitChars sep rest with
      | g :: gs => (c :: g) :: gs
      | [] => [[c]]

/-- Models `str::split(char)` collected to a vector. -/
def rustSplit (s : String) (sep : Char) : List String :=
  (splitChars sep s.data).map fun cs => ⟨cs⟩

/-- Substring containment on character lists. -/
def charsContain (needle : List Char) : List Char → Bool
  | [] => needle.isEmpty
  | c :: rest => needle.isPrefixOf (c :: rest) || charsContain needle rest

/-- Models `str::contains(&str)`. -/
def strContains (hay needle : String) : Bool :=
  charsContain needle.data hay.data

/-! ## Rust integer parsing (models `str::parse::<u32>` / `str::parse::<i64>`) -/

/-- Models `str::parse::<u32>`: optional leading `+`, then one or more ASCII
digits, value below 2^32. -/
def rustParseU32 (s : String) : Option Nat :=
  let cs := s.data
  let ds := match cs with
    | '+' :: rest => rest
    | _ => cs
  if ds = [] then none
  else if ds.all (·.isDigit) then
    let n := ds.foldl (fun acc c => acc * 10 + (c.toNat - 48)) 0
    if n < 2 ^ 32 then some n else none
  else none

/-- Models `str::parse::<i64>`: optional sign, one or more ASCII digits,
value within the i64 range. -/
def rustParseI64 (s : String) : Option Int :=
  let cs := s.data
  let signed := match cs with
    | '-' :: rest => (true, rest)
    | '+' :: rest => (false, rest)
    | _ => (false, cs)
  let ds := signed.2
  if ds = [] then none
  else if ds.all (·.isDigit) then
    let n : Nat := ds.foldl (fun acc c => acc * 10 + (c.toNat - 48)) 0
    if signed.1 then
      if n ≤ 2 ^ 63 then some (-(n : Int)) else none
    else
      if n < 2 ^ 63 then some (n : Int) else none
  else none

/-! ## Canonical JSON value (models `serde_json::Value`)

Rust `serde_json::Number` holds either an integer or an f64; we separate the
two.  `Value::from` on a non-finite float yields `Null` (see `jsonOfFloat`).
Objects are kept as insertion-ordered association lists. -/

inductive JValue where
  | null
  | bool (b : Bool)
  | num (i : Int)
  | fnum (x : Float)
  | str (s : String)
  | arr (items : List JValue)
  | obj (fields : List (String × JValue))

/-- Models `serde_json::Value::from(x : f64)`: `Null` when `x` is not finite
(`Number::from_f64` returns `None` for NaN and infinities). -/
def jsonOfFloat (x : Float) : JValue :=
  if x.isFinite then .fnum x else .null

/-! ## Redis native replies and the value normalizer
(src/src-tauri/src/redis_manager.rs)

`RValue` models `redis::Value` (Nil, Int, Data, Bulk, Status, Okay). -/

inductive RValue where
  | nil
  | int (i : Int)
  | data (bs : List Nat)
  | bulk (items : List RValue)
  | status (s : String)
  | okay

/-! `RValue.size`: structural size of a reply, used as fuel for the
normalizer's recursion through nested arrays. -/
mutual
def RValue.size : RValue → Nat
  | .nil => 1
  | .int _ => 1
  | .data _ => 1
  | .bulk items => 1 + RValue.sizeL items
  | .status _ => 1
  | .okay => 1
def RValue.sizeL : List RValue → Nat
  | [] => 1
  | v :: vs => 1 + RValue.size v + RValue.sizeL vs
end

/-! `RValue.beq`: structural equality of replies, modelling the derived
`PartialEq` on `redis::Value` used by the self-wrap guard `items[0] == v`. -/
mutual
def RValue.beq : RValue → RValue → Bool
  | .nil, .nil => true
  | .int i, .int j => i == j
  | .data a, .data b => a == b
  | .bulk a, .bulk b => RValue.beqL a b
  | .status a, .status b => a == b
  | .okay, .okay => true
  | _, _ => false
def RValue.beqL : List RValue → List RValue → Bool
  | [], [] => true
  | a :: as, b :: bs => RValue.beq a b && RValue.beqL as bs
  | _, _ => false
end


/-- Models `String::from_redis_value`: bulk data must be valid UTF-8,
status replies convert to their text, `Okay` to `"OK"`; nil, integer and
array replies fail. -/
def stringFromRedisValue : RValue → Option String
  | .data bs => utf8Decode bs
  | .okay => some "OK"
  | .status s => some s
  | _ => none

/-- Models `i64::from_redis_value`: integer replies directly, bulk data and
status replies by parsing their text as a signed integer; others fail. -/
def i64FromRedisValue : RValue → Option Int
  | .int i => some i
  | .data bs => (utf8Decode bs).bind rustParseI64
  | .status s => rustParseI64 s
  | _ => none

/-- Models `Vec::<redis::Value>::from_redis_value`: an array reply yields
its items, `Nil` an empty vector, and any single non-array value is wrapped
in a one-element vector (the auto-wrapping the source's comment warns
about). -/
def vecFromRedisValue : RValue → List RValue
  | .bulk items => items
  | .nil => []
  | v => [v]

/-- Models `format!("\x7b:?\x7d", v)` on a `redis::Value` (derived `Debug`);
fuel-indexed for the nested array case (fuel = `RValue.size` always
suffices; only non-array values are ever debug-rendered by the
normalizer). -/
def debugRenderFuel : Nat → RValue → String
  | _, .nil => "Nil"
  | _, .int i => "Int(" ++ toString i ++ ")"
  | _, .data bs => "Data([" ++ String.intercalate ", " (bs.map toString) ++ "])"
  | _, .status s => "Status(\"" ++ s ++ "\")"
  | _, .okay => "Okay"
  | 0, .bulk _ => ""
  | fuel + 1, .bulk items =>
    "Bulk([" ++ String.intercalate ", " (items.map (debugRenderFuel fuel)) ++ "])"

def debugRender (v : RValue) : String :=
  debugRenderFuel (RValue.size v) v

/-- The body of `redis_value_to_json`, fuel-indexed to make the recursion
through the decoded item list structural (fuel = `RValue.size v` always
suffices, see `redisValueToJsonFuel_congr`): nil and integer replies map
directly; anything else first attempts a text decode; only on failure is
the aggregate decode attempted, with the self-wrap guard (`items.len() == 1
&& items[0] == v`) falling through to the literal debug rendering. -/
def redisValueToJsonFuel : Nat → RValue → JValue
  | _, .nil => .null
  | _, .int i => .num i
  | fuel, v =>
    match stringFromRedisValue v with
    | some s => .str s
    | none =>
      let items := vecFromRedisValue v
      if items.length == 1 && RValue.beq (items.headD .nil) v then
        .str (debugRender v)
      else
        match fuel with
        | 0 => .null
        | fuel + 1 => .arr (items.map (redisValueToJsonFuel fuel))

/-- Models `redis_value_to_json` (redis_manager.rs). -/
def redis_value_to_json (v : RValue) : JValue :=
  redisValueToJsonFuel (RValue.size v) v

/-- One entry of the key listing (`KeyDetail` in redis_manager.rs). -/
structure KeyDetail where
  key : String
  type : String
  ttl : Int
  length : Option Int
  deriving DecidableEq

/-- The `KeyDetail` built for key index `i`: replies `3i, 3i+1, 3i+2` of
the pipeline, substituting `"unknown"` / `-1` / `none` when a reply fails
to decode (`unwrap_or_else` / `unwrap_or` / `ok().flatten()` in the
source).  The memory-usage decode models `Option::<i64>::from_redis_value`
followed by `.ok().flatten()`: `Nil` and decode failures both give
`none`. -/
def keyDetailAt (keys : List String) (results : List RValue) (i : Nat) : KeyDetail :=
  { key := keys.getD i ""
    type := (stringFromRedisValue (results.getD (3 * i) .nil)).getD "unknown"
    ttl := (i64FromRedisValue (results.getD (3 * i + 1) .nil)).getD (-1)
    length := match results.getD (3 * i + 2) .nil with
      | .nil => none
      | v => i64FromRedisValue v }

/-- Recursion of `parse_key_details_from_pipeline` over the keys with their
index: each unguarded Rust index `results[3i + k]` becomes a `get?` whose
`none` models the out-of-bounds panic aborting the whole call. -/
def parseKeyDetailsAux (results : List RValue) : Nat → List String → Option (List KeyDetail)
  | _, [] => some []
  | i, key :: ks => do
    let tv ← results.get? (3 * i)
    let ttlv ← results.get? (3 * i + 1)
    let mv ← results.get? (3 * i + 2)
    let rest ← parseKeyDetailsAux results (i + 1) ks
    pure ({ key := key
            type := (stringFromRedisValue tv).getD "unknown"
            ttl := (i64FromRedisValue ttlv).getD (-1)
            length := match mv with
              | .nil => none
              | v => i64FromRedisValue v } :: rest)

/-- Models `parse_key_details_from_pipeline` (redis_manager.rs): `none`
exactly when the unguarded indexing would be out of bounds. -/
def parse_key_details_from_pipeline (keys : List String) (results : List RValue) :
    Option (List KeyDetail) :=
  parseKeyDetailsAux results 0 keys

/-! ## MySQL rows and normalization (src/src-tauri/src/mysql_manager.rs)

A cell is the backend-reported column type tag plus the natively stored
value.  The `row.try_get::<T, _>(i)` decoders of sqlx are modelled as
strict representation matches (sqlx checks value/type compatibility before
decoding); integer widths are collapsed to `Int` (values read from a
matching MySQL column always fit their width), and blob-to-`String`
decoding is UTF-8 validation of the raw bytes. -/

inductive MyVal where
  | vnull
  | vbool (b : Bool)
  | vint (i : Int)
  | vfloat (x : Float)
  | vtext (s : String)
  | vblob (bs : List Nat)
  | vdatetime (s : String)
  | vdate (s : String)
  | vtime (s : String)

/-- Models `row.try_get::<bool, _>` (TINYINT values decode as `!= 0`). -/
def myGetBool : MyVal → Option Bool
  | .vbool b => some b
  | .vint i => some (decide (i ≠ 0))
  | _ => none

/-- Models the integer decoders `try_get::<i8/i16/i32/i64, _>`. -/
def myGetInt : MyVal → Option Int
  | .vint i => some i
  | _ => none

/-- Models the float decoders `try_get::<f32/f64, _>`. -/
def myGetFloat : MyVal → Option Float
  | .vfloat x => some x
  | _ => none

/-- Models `try_get::<String, _>`: text directly, blob bytes through strict
UTF-8 validation. -/
def myGetString : MyVal → Option String
  | .vtext s => some s
  | .vblob bs => utf8Decode bs
  | _ => none

/-- Models `try_get::<NaiveDateTime, _>` / `try_get::<DateTime<Utc>, _>`
followed by `.to_string()` (natural text rendering). -/
def myGetDateTime : MyVal → Option String
  | .vdatetime s => some s
  | _ => none

/-- Models `try_get::<NaiveDate, _>` followed by `.to_string()`. -/
def myGetDate : MyVal → Option String
  | .vdate s => some s
  | _ => none

/-- Models `try_get::<NaiveTime, _>` followed by `.to_string()`. -/
def myGetTime : MyVal → Option String
  | .vtime s => some s
  | _ => none

/-- The per-cell dispatch of `row_to_json` in mysql_manager.rs: match on
the backend-reported type name, attempt that type's decodes, `Null` on
failure; unlisted tags fall to the wildcard arm (`try_get::<String>` else
`Null`). -/
def mysqlDecodeValue (type_name : String) (v : MyVal) : JValue :=
  match type_name with
  | "BOOLEAN" | "TINYINT" =>
    match myGetBool v with
    | some b => .bool b
    | none => ((myGetInt v).map JValue.num).getD .null
  | "SMALLINT" => ((myGetInt v).map JValue.num).getD .null
  | "INT" | "INTEGER" => ((myGetInt v).map JValue.num).getD .null
  | "BIGINT" => ((myGetInt v).map JValue.num).getD .null
  | "FLOAT" => ((myGetFloat v).map jsonOfFloat).getD .null
  | "DOUBLE" | "REAL" => ((myGetFloat v).map jsonOfFloat).getD .null
  | "VARCHAR" | "CHAR" | "TEXT" | "TINYTEXT" | "MEDIUMTEXT" | "LONGTEXT" | "ENUM" =>
    ((myGetString v).map JValue.str).getD .null
  | "DATETIME" | "TIMESTAMP" =>
    match myGetDateTime v with
    | some s => .str s
    | none => ((myGetString v).map JValue.str).getD .null
  | "DATE" => ((myGetDate v).map JValue.str).getD .null
  | "TIME" => ((myGetTime v).map JValue.str).getD .null
  | _ =>
    match myGetString v with
    | some s => .str s
    | none => .null

/-- One column of a fetched MySQL row: name, reported type name, value. -/
structure MyCol where
  name : String
  type_name : String
  val : MyVal

/-- Models `row_to_json` (mysql_manager.rs); the serde map is kept as the
insertion-ordered list of (column name, value) pairs. -/
def mysql_row_to_json (row : List MyCol) : List (String × JValue) :=
  row.map fun c => (c.name, mysqlDecodeValue c.type_name c.val)

/-! ## SQLite rows and normalization (src/src-tauri/src/sqlite_manager.rs)

A stored SQLite value is one of the five storage classes.  The sqlx
decoders are modelled as strict storage-class matches (sqlx checks the
value's type before decoding), per the source's own mapping comment
(INTEGER -> i64/bool, REAL -> f64, TEXT -> String). -/

inductive SVal where
  | null
  | int (i : Int)
  | real (x : Float)
  | text (s : String)
  | blob (bs : List Nat)

/-- Models `row.try_get::<i64, _>` on a SQLite value. -/
def sqGetInt : SVal → Option Int
  | .int i => some i
  | _ => none

/-- Models `row.try_get::<bool, _>` (an INTEGER decodes as `!= 0`). -/
def sqGetBool : SVal → Option Bool
  | .int i => some (decide (i ≠ 0))
  | _ => none

/-- Models `row.try_get::<f64, _>`. -/
def sqGetFloat : SVal → Option Float
  | .real x => some x
  | _ => none

/-- Models `row.try_get::<String, _>`. -/
def sqGetString : SVal → Option String
  | .text s => some s
  | _ => none

/-- The per-cell dispatch of `row_to_json` in sqlite_manager.rs: the
reported type name governs the listed tags (NULL/INTEGER/REAL/TEXT/BLOB,
each attempting only its own decodes, `Null` on failure, BLOB a fixed
placeholder); everything else falls through the ordered ladder
i64 -> f64 -> String -> Null. -/
def sqliteDecodeValue (type_name : String) (v : SVal) : JValue :=
  match type_name with
  | "NULL" => .null
  | "INTEGER" =>
    match sqGetInt v with
    | some i => .num i
    | none =>
      match sqGetBool v with
      | some b => .bool b
      | none => .null
  | "REAL" => ((sqGetFloat v).map jsonOfFloat).getD .null
  | "TEXT" => ((sqGetString v).map JValue.str).getD .null
  | "BLOB" => .str "<BLOB>"
  | _ =>
    match sqGetInt v with
    | some i => .num i
    | none =>
      match sqGetFloat v with
      | some x => jsonOfFloat x
      | none =>
        match sqGetString v with
        | some s => .str s
        | none => .null

/-- Modelled from the spec: the ordered fallback ladder
integer -> float -> text -> null applied to a stored value regardless of
the declared tag, the rule the spec calls authoritative for the
weakly-typed dialect.  Kept separate from `sqliteDecodeValue` (the code) so
the two can be compared. -/
def sqliteLadderSpec (v : SVal) : JValue :=
  match sqGetInt v with
  | some i => .num i
  | none =>
    match sqGetFloat v with
    | some x => jsonOfFloat x
    | none =>
      match sqGetString v with
      | some s => .str s
      | none => .null

/-- One column of a fetched SQLite row. -/
structure SqCol where
  name : String
  type_name : String
  val : SVal

/-- Models `row_to_json` (sqlite_manager.rs). -/
def sqlite_row_to_json (row : List SqCol) : List (String × JValue) :=
  row.map fun c => (c.name, sqliteDecodeValue c.type_name c.val)

/-! ## SQL classification and execute (mysql_manager.rs / sqlite_manager.rs)

`execute_sql` / `execute_sqlite_sql` classify the input by
`sql.trim().to_uppercase().starts_with(...)` and either fetch rows (read)
or execute (write).  The network round trip is abstracted: the rows a read
would fetch and the affected count a write would report are passed in, so
the functions model exactly the classification and result assembly. -/

structure ColumnInfo where
  name : String
  type_name : String

structure SqlResult where
  columns : List ColumnInfo
  rows : List (List (String × JValue))
  affected_rows : Nat

/-- The read classification in `execute_sql` (mysql_manager.rs):
SELECT / SHOW / DESCRIBE / EXPLAIN prefixes of the trimmed, uppercased
input. -/
def mysqlIsQuery (sql : String) : Bool :=
  let sql_upper := rustToUpper (rustTrim sql)
  rustStartsWith sql_upper "SELECT" || rustStartsWith sql_upper "SHOW" ||
    rustStartsWith sql_upper "DESCRIBE" || rustStartsWith sql_upper "EXPLAIN"

/-- The read classification in `execute_sqlite_sql` (sqlite_manager.rs):
SELECT / PRAGMA / EXPLAIN prefixes of the trimmed, uppercased input. -/
def sqliteIsQuery (sql : String) : Bool :=
  let sql_upper := rustToUpper (rustTrim sql)
  rustStartsWith sql_upper "SELECT" || rustStartsWith sql_upper "PRAGMA" ||
    rustStartsWith sql_upper "EXPLAIN"

/-- Column metadata taken from the first fetched row (empty when no rows),
as both execute functions do. -/
def columnsOfMysql (rows : List (List MyCol)) : List ColumnInfo :=
  match rows.head? with
  | some first_row => first_row.map fun c => ⟨c.name, c.type_name⟩
  | none => []

def columnsOfSqlite (rows : List (List SqCol)) : List ColumnInfo :=
  match rows.head? with
  | some first_row => first_row.map fun c => ⟨c.name, c.type_name⟩
  | none => []

/-- Models `execute_sql` (mysql_manager.rs) after handle resolution:
`fetched` are the rows a read fetches, `affected` the native count a write
reports. -/
def execute_sql (sql : String) (fetched : List (List MyCol)) (affected : Nat) : SqlResult :=
  if mysqlIsQuery sql then
    { columns := columnsOfMysql fetched
      rows := fetched.map mysql_row_to_json
      affected_rows := 0 }
  else
    { columns := [], rows := [], affected_rows := affected }

/-- Models `execute_sqlite_sql` (sqlite_manager.rs) after handle
resolution. -/
def execute_sqlite_sql (sql : String) (fetched : List (List SqCol)) (affected : Nat) :
    SqlResult :=
  if sqliteIsQuery sql then
    { columns := columnsOfSqlite fetched
      rows := fetched.map sqlite_row_to_json
      affected_rows := 0 }
  else
    { columns := [], rows := [], affected_rows := affected }

/-! ## Connection profiles and the handle registries

`Connection` models the profile row fetched from the embedded store
(models.rs); the `fetch_optional` query is abstracted as a pure
`profiles : Int → Option Connection` (the store is external to the core).
Handles are modelled by numeric ids drawn from a counter: a fresh id is
allocated exactly when a new backend handle is opened, so an unchanged
counter witnesses that no handle was opened.  Opening itself is an oracle
`String → Except String Unit` on the connection URL (`.ok` = the transport
connected, `.error e` = the wrapped transport error). -/

structure Connection where
  id : Int
  name : String
  db_type : String
  host : Option String
  port : Option Int
  username : Option String
  password : Option String
  database : Option String

/-- Association-list lookup modelling `HashMap::get`. -/
def lookupKV {α β : Type} [DecidableEq α] (l : List (α × β)) (k : α) : Option β :=
  (l.find? fun p => p.1 = k).map (·.2)

/-- Association-list insert modelling `HashMap::insert` (overwrites). -/
def insertKV {α β : Type} [DecidableEq α] (l : List (α × β)) (k : α) (v : β) :
    List (α × β) :=
  (k, v) :: l.filter fun p => p.1 ≠ k

/-! ### Redis client registry (redis_manager.rs, `get_or_create_redis_client`) -/

/-- The registry key `format!("\x7b\x7d:\x7b\x7d", connection_id, db_index)`. -/
def redisKey (connection_id : Int) (db_index : Nat) : String :=
  toString connection_id ++ ":" ++ toString db_index

/-- The `redis_clients` map plus the fresh-handle counter. -/
structure RedisSt where
  clients : List (String × Nat)
  nextId : Nat

/-- The effective DB index: the explicit parameter if given, else the
profile's default database parsed as u32, else 0
(`connection.database.as_deref().unwrap_or("0").parse::<u32>().unwrap_or(0)`). -/
def redisDbIndex (connection : Connection) (db : Option Nat) : Nat :=
  match db with
  | some db_idx => db_idx
  | none => (rustParseU32 (connection.database.getD "0")).getD 0

/-- The Redis connection URL built from profile fields
(default port 6379, password included only when non-empty). -/
def redisUrl (host : String) (port : Int) (password : String) (db_index : Nat) : String :=
  if password ≠ "" then
    "redis://:" ++ password ++ "@" ++ host ++ ":" ++ toString port ++ "/" ++ toString db_index
  else
    "redis://" ++ host ++ ":" ++ toString port ++ "/" ++ toString db_index

/-- Steps 2-7 of `get_or_create_redis_client`: fetch the profile, check the
kind, resolve the DB index, re-check the cache, build the URL, open and
cache a new client.  Returns the result together with the final state. -/
def redisFetchPath (profiles : Int → Option Connection)
    (openClient : String → Except String Unit) (st : RedisSt)
    (connection_id : Int) (db : Option Nat) : Except String Nat × RedisSt :=
  match profiles connection_id with
  | none => (.error "Connection not found", st)
  | some connection =>
    if connection.db_type ≠ "redis" then
      (.error "Only Redis is supported for this operation", st)
    else
      let db_index := redisDbIndex connection db
      let key := redisKey connection_id db_index
      match lookupKV st.clients key with
      | some client => (.ok client, st)
      | none =>
        match connection.host with
        | none => (.error "Host is required", st)
        | some host =>
          let port := connection.port.getD 6379
          let password := connection.password.getD ""
          let url := redisUrl host port password db_index
          match openClient url with
          | .error e => (.error ("Failed to create Redis client: " ++ e), st)
          | .ok _ =>
            let client := st.nextId
            (.ok client, ⟨insertKV st.clients key client, st.nextId + 1⟩)

/-- Models `get_or_create_redis_client` (redis_manager.rs): when `db` is
given the cache is checked first under `connection_id:db`; otherwise (and
on a miss) the fetch path runs. -/
def get_or_create_redis_client (profiles : Int → Option Connection)
    (openClient : String → Except String Unit) (st : RedisSt)
    (connection_id : Int) (db : Option Nat) : Except String Nat × RedisSt :=
  match db with
  | some db_index =>
    match lookupKV st.clients (redisKey connection_id db_index) with
    | some client => (.ok client, st)
    | none => redisFetchPath profiles openClient st connection_id db
  | none => redisFetchPath profiles openClient st connection_id db

/-! ### MySQL pool registry (mysql_manager.rs, `get_or_create_pool`) -/

/-- A pool handle: id plus the `is_closed` health flag the cache check
reads. -/
structure PoolHandle where
  id : Nat
  closed : Bool
  deriving DecidableEq

structure MysqlSt where
  pools : List (Int × PoolHandle)
  nextId : Nat

def mysqlUrl (username password host : String) (port : Int) (database : String) : String :=
  "mysql://" ++ username ++ ":" ++ password ++ "@" ++ host ++ ":" ++ toString port ++
    "/" ++ database

/-- Steps 2-5 of mysql_manager's `get_or_create_pool`: fetch the profile,
check the kind, build the URL with defaults (localhost / 3306 / root /
empty password and database), connect, and cache the new pool. -/
def mysqlCreatePath (profiles : Int → Option Connection)
    (connectPool : String → Except String Unit) (st : MysqlSt)
    (connection_id : Int) : Except String PoolHandle × MysqlSt :=
  match profiles connection_id with
  | none => (.error "Connection not found", st)
  | some connection =>
    if connection.db_type ≠ "mysql" then
      (.error "Only MySQL is supported for now", st)
    else
      let host := connection.host.getD "localhost"
      let port := connection.port.getD 3306
      let username := connection.username.getD "root"
      let password := connection.password.getD ""
      let database := connection.database.getD ""
      let url := mysqlUrl username password host port database
      match connectPool url with
      | .error e => (.error ("Failed to connect to MySQL: " ++ e), st)
      | .ok _ =>
        let pool : PoolHandle := ⟨st.nextId, false⟩
        (.ok pool, ⟨insertKV st.pools connection_id pool, st.nextId + 1⟩)

/-- Models `get_or_create_pool` (mysql_manager.rs): return the cached pool
if present and not closed; otherwise run the create path. -/
def get_or_create_pool (profiles : Int → Option Connection)
    (connectPool : String → Except String Unit) (st : MysqlSt)
    (connection_id : Int) : Except String PoolHandle × MysqlSt :=
  match lookupKV st.pools connection_id with
  | some pool =>
    if !pool.closed then (.ok pool, st)
    else mysqlCreatePath profiles connectPool st connection_id
  | none => mysqlCreatePath profiles connectPool st connection_id

/-! ### SQLite pool registry (sqlite_manager.rs, `get_or_create_pool`) -/

structure SqliteSt where
  pools : List (Int × PoolHandle)
  nextId : Nat

/-- Steps 2-5 of sqlite_manager's `get_or_create_pool`: like the MySQL
path but keyed on kind `"sqlite"`, requiring a database path, URL
`sqlite://<path>`. -/
def sqliteCreatePath (profiles : Int → Option Connection)
    (connectPool : String → Except String Unit) (st : SqliteSt)
    (connection_id : Int) : Except String PoolHandle × SqliteSt :=
  match profiles connection_id with
  | none => (.error "Connection not found", st)
  | some connection =>
    if connection.db_type ≠ "sqlite" then
      (.error "Only SQLite is supported for this operation", st)
    else
      match connection.database with
      | none => (.error "Database path is required", st)
      | some db_path =>
        let url := "sqlite://" ++ db_path
        match connectPool url with
        | .error e => (.error ("Failed to connect to SQLite: " ++ e), st)
        | .ok _ =>
          let pool : PoolHandle := ⟨st.nextId, false⟩
          (.ok pool, ⟨insertKV st.pools connection_id pool, st.nextId + 1⟩)

/-- Models sqlite_manager's `get_or_create_pool`: return the cached pool
if present and not closed; otherwise run the create path. -/
def get_or_create_sqlite_pool (profiles : Int → Option Connection)
    (connectPool : String → Except String Unit) (st : SqliteSt)
    (connection_id : Int) : Except String PoolHandle × SqliteSt :=
  match lookupKV st.pools connection_id with
  | some pool =>
    if !pool.closed then (.ok pool, st)
    else sqliteCreatePath profiles connectPool st connection_id
  | none => sqliteCreatePath profiles connectPool st connection_id

/-! ### Memcached client (memcached_manager.rs, `get_or_create_client`)

Despite its name the function keeps no registry: every call fetches the
profile and connects a fresh client.  The state is just the fresh-handle
counter. -/

/-- Models `get_memcached_url`. -/
def get_memcached_url (connection : Connection) : String :=
  let host := connection.host.getD "localhost"
  let port := connection.port.getD 11211
  "memcache://" ++ host ++ ":" ++ toString port

/-- Models `get_or_create_client` (memcached_manager.rs). -/
def get_or_create_client (profiles : Int → Option Connection)
    (connectClient : String → Except String Unit) (nextId : Nat)
    (connection_id : Int) : Except String Nat × Nat :=
  match profiles connection_id with
  | none => (.error "Connection not found", nextId)
  | some connection =>
    if connection.db_type ≠ "memcached" then
      (.error "Only Memcached is supported for this operation", nextId)
    else
      let url := get_memcached_url connection
      match connectClient url with
      | .error e => (.error ("Failed to connect to Memcached: " ++ e), nextId)
      | .ok _ => (.ok nextId, nextId + 1)

/-! ## Memcached point get and key enumeration (memcached_manager.rs) -/

/-- Zlib decompression (flate2 `ZlibDecoder::read_to_end`) is an external
codec, abstracted as an oracle `zlib : List Nat → Option (List Nat)`
(`some out` = read succeeded with output `out`; `none` = read error). -/
def zlibNonempty (zlib : List Nat → Option (List Nat)) (bs : List Nat) :
    Option (List Nat) :=
  match zlib bs with
  | some out => if out = [] then none else some out
  | none => none

/-- Models the value path of `get_memcached_value` (memcached_manager.rs)
as a function of the fetched bytes (`none` = absent key): attempt a zlib
decode of the raw bytes, keeping a non-empty result; else, when more than
4 bytes, retry after skipping a 4-byte prefix; else render the original
bytes as lossy text.  An absent key succeeds with the literal `"(nil)"`
(`value.unwrap_or_else(|| "(nil)".to_string())`). -/
def get_memcached_value (zlib : List Nat → Option (List Nat))
    (val : Option (List Nat)) : String :=
  match val with
  | some bytes =>
    match zlibNonempty zlib bytes with
    | some decompressed => utf8Lossy decompressed
    | none =>
      if bytes.length > 4 then
        match zlibNonempty zlib (bytes.drop 4) with
        | some decompressed2 => utf8Lossy decompressed2
        | none => utf8Lossy bytes
      else utf8Lossy bytes
  | none => "(nil)"

/-- The stats-items request sent by `list_keys_via_tcp`. -/
def statsItemsCmd : String := "stats items\r\n"

/-- The cachedump request sent per slab, capped at page size 100
(`format!("stats cachedump \x7b\x7d 100\r\n", slab_id)`). -/
def cachedumpCmd (slab_id : Nat) : String :=
  "stats cachedump " ++ toString slab_id ++ " 100\r\n"

/-- The first reading loop of `list_keys_via_tcp` over the received lines
(as delivered by `read_line`, line endings included): stop at a trimmed
`END`; from lines starting with `STAT items:` take the token between the
first two colons, parse it as u32, and collect it if not already
collected; ignore everything else. -/
def collectSlabsAux : List String → List Nat → List Nat
  | [], slabs => slabs
  | line :: rest, slabs =>
    if rustTrim line = "END" then slabs
    else if rustStartsWith line "STAT items:" then
      let parts := rustSplit line ':'
      if parts.length ≥ 2 then
        match rustParseU32 (parts.getD 1 "") with
        | some slab_id =>
          if slabs.contains slab_id then collectSlabsAux rest slabs
          else collectSlabsAux rest (slabs ++ [slab_id])
        | none => collectSlabsAux rest slabs
      else collectSlabsAux rest slabs
    else collectSlabsAux rest slabs

def collectSlabs (lines : List String) : List Nat :=
  collectSlabsAux lines []

/-- The per-slab reading loop of `list_keys_via_tcp`: stop at a trimmed
`END`; from lines starting with `ITEM ` take the second space-separated
token as the key; ignore everything else. -/
def extractKeysAux : List String → List String → List String
  | [], keys => keys
  | line :: rest, keys =>
    if rustTrim line = "END" then keys
    else if rustStartsWith line "ITEM " then
      let parts := rustSplit line ' '
      if parts.length ≥ 2 then extractKeysAux rest (keys ++ [parts.getD 1 ""])
      else extractKeysAux rest keys
    else extractKeysAux rest keys

/-- Models `list_keys_via_tcp` as a function of the received protocol
lines: the stats-items response determines the slabs, and `dump slab`
gives the lines of that slab's cachedump response; keys accumulate across
slabs in order. -/
def list_keys_via_tcp (statsLines : List String) (dump : Nat → List String) :
    List String :=
  (collectSlabs statsLines).foldl (fun keys slab_id => extractKeysAux (dump slab_id) keys) []

/-- One entry of the key listing (`MemcachedKey` in memcached_manager.rs);
size and expiration are always 0 in the listing path. -/
structure MemcachedKey where
  key : String
  size : Nat
  expiration : Int
  deriving DecidableEq

/-- The filtering loop of `get_memcached_keys`: keep a key when the filter
is absent/empty or the lowercased key contains the lowercased filter. -/
def get_memcached_keys (filter : Option String) (raw_keys : List String) :
    List MemcachedKey :=
  let filter_str := rustToLower (filter.getD "")
  (raw_keys.filter fun k => filter_str = "" || strContains (rustToLower k) filter_str).map
    fun k => { key := k, size := 0, expiration := 0 }

/-! # Theorems -/

/-! ## Helper lemmas -/

mutual
theorem RValue.beq_iff : ∀ a b : RValue, RValue.beq a b = true ↔ a = b
  | .nil, b => by cases b <;> simp [RValue.beq]
  | .int i, b => by cases b <;> simp [RValue.beq]
  | .data bs, b => by cases b <;> simp [RValue.beq]
  | .status s, b => by cases b <;> simp [RValue.beq]
  | .okay, b => by cases b <;> simp [RValue.beq]
  | .bulk a, .nil => by simp [RValue.beq]
  | .bulk a, .int _ => by simp [RValue.beq]
  | .bulk a, .data _ => by simp [RValue.beq]
  | .bulk a, .status _ => by simp [RValue.beq]
  | .bulk a, .okay => by simp [RValue.beq]
  | .bulk a, .bulk b => by
    simp only [RValue.beq, RValue.bulk.injEq]
    exact RValue.beqL_iff a b
theorem RValue.beqL_iff : ∀ as bs : List RValue, RValue.beqL as bs = true ↔ as = bs
  | [], [] => by simp [RValue.beqL]
  | [], _ :: _ => by simp [RValue.beqL]
  | _ :: _, [] => by simp [RValue.beqL]
  | a :: as, b :: bs => by
    simp only [RValue.beqL, Bool.and_eq_true, List.cons.injEq]
    exact and_congr (RValue.beq_iff a b) (RValue.beqL_iff as bs)
end

theorem RValue.beq_refl (v : RValue) : RValue.beq v v = true :=
  (RValue.beq_iff v v).mpr rfl

theorem RValue.size_pos (v : RValue) : 1 ≤ RValue.size v := by
  cases v <;> simp [RValue.size]

theorem RValue.sizeL_lt {x : RValue} : ∀ {l : List RValue}, x ∈ l →
    RValue.size x < RValue.sizeL l := by
  intro l hx
  induction l with
  | nil => cases hx
  | cons a as ih =>
    rcases List.mem_cons.mp hx with h | h
    · subst h; simp [RValue.sizeL]; omega
    · have := ih h; simp [RValue.sizeL]; omega

/-- A list can never be the one-element list of its own `bulk` wrapper. -/
theorem RValue.no_self_wrap (items : List RValue) : items ≠ [RValue.bulk items] := by
  intro h
  have := congrArg RValue.sizeL h
  simp [RValue.sizeL, RValue.size] at this
  omega

/-- The self-wrap guard never fires for a genuine array reply. -/
theorem bulk_guard_false (items : List RValue) :
    ((vecFromRedisValue (.bulk items)).length == 1 &&
      RValue.beq ((vecFromRedisValue (.bulk items)).headD .nil) (.bulk items)) = false := by
  match items with
  | [] => rfl
  | [x] =>
    simp only [vecFromRedisValue, List.length_singleton, List.headD_cons, Bool.and_eq_false_iff]
    right
    cases hb : RValue.beq x (RValue.bulk [x])
    · rfl
    · exfalso
      have hx := (RValue.beq_iff _ _).mp hb
      exact RValue.no_self_wrap [x] (by rw [← hx])
  | x :: y :: rest =>
    simp [vecFromRedisValue]

/-- Fuel irrelevance: any fuel at least `RValue.size v` computes the same
normalization, so `redis_value_to_json` is the unique fixpoint of the
source's recursion. -/
theorem redisValueToJsonFuel_congr :
    ∀ (f1 : Nat) (v : RValue) (f2 : Nat), RValue.size v ≤ f1 → RValue.size v ≤ f2 →
      redisValueToJsonFuel f1 v = redisValueToJsonFuel f2 v := by
  intro f1
  induction f1 with
  | zero =>
    intro v f2 h1 _
    exact absurd h1 (by have := RValue.size_pos v; omega)
  | succ f1 ih =>
    intro v f2 h1 h2
    have hf2 : f2 = (f2 - 1) + 1 := by have := RValue.size_pos v; omega
    rw [hf2]
    cases v with
    | nil => simp only [redisValueToJsonFuel]
    | int i => simp only [redisValueToJsonFuel]
    | data bs =>
      simp only [redisValueToJsonFuel, vecFromRedisValue]
      cases utf8Decode bs <;> simp [stringFromRedisValue, RValue.beq_refl]
    | status s => simp only [redisValueToJsonFuel, stringFromRedisValue]
    | okay => simp only [redisValueToJsonFuel, stringFromRedisValue]
    | bulk items =>
      simp only [redisValueToJsonFuel, stringFromRedisValue, vecFromRedisValue]
      by_cases hg : (items.length == 1 && RValue.beq (items.headD .nil) (.bulk items)) = true
      · rw [if_pos hg, if_pos hg]
      · rw [if_neg hg, if_neg hg]
        have hs : RValue.sizeL items ≤ f1 ∧ RValue.sizeL items ≤ f2 - 1 := by
          simp [RValue.size] at h1 h2
          omega
        congr 1
        apply List.map_congr_left
        intro x hx
        have hx1 : RValue.size x ≤ f1 := le_of_lt (lt_of_lt_of_le (RValue.sizeL_lt hx) hs.1)
        have hx2 : RValue.size x ≤ f2 - 1 := le_of_lt (lt_of_lt_of_le (RValue.sizeL_lt hx) hs.2)
        exact ih x (f2 - 1) hx1 hx2

/-! ## C1: the keyvalue normalizer -/

/-- C1.  For every keyvalue native reply: the normalizer first tries a text
decode (a successful text decode is returned as text); only on failure
does it try the aggregate decode, and when that decode yields a
single-element array whose sole element equals the pre-decode value (the
self-wrap guard) it falls through to the literal textual rendering instead
of recursing.  Hence a non-nil, non-integer, non-aggregate value that
fails text decoding renders as terminal text in one step — never as a
one-element array — while a genuine aggregate renders as the ordered array
of its recursively normalized items. -/
theorem redis_value_to_json_spec (v : RValue) :
    (∀ s, stringFromRedisValue v = some s → redis_value_to_json v = .str s)
    ∧ (v ≠ .nil → (∀ i, v ≠ .int i) → stringFromRedisValue v = none →
        vecFromRedisValue v = [v] → redis_value_to_json v = .str (debugRender v))
    ∧ (v ≠ .nil → (∀ i, v ≠ .int i) → (∀ items, v ≠ .bulk items) →
        stringFromRedisValue v = none → redis_value_to_json v = .str (debugRender v))
    ∧ (∀ items, v = .bulk items →
        redis_value_to_json v = .arr (items.map redis_value_to_json)) := by
  cases v with
  | nil =>
    refine ⟨?_, ?_, ?_, ?_⟩
    · intro s h; simp [stringFromRedisValue] at h
    · intro hn; exact absurd rfl hn
    · intro hn; exact absurd rfl hn
    · intro items h; exact RValue.noConfusion h
  | int i =>
    refine ⟨?_, ?_, ?_, ?_⟩
    · intro s h; simp [stringFromRedisValue] at h
    · intro _ hi; exact absurd rfl (hi i)
    · intro _ hi; exact absurd rfl (hi i)
    · intro items h; exact RValue.noConfusion h
  | data bs =>
    refine ⟨?_, ?_, ?_, ?_⟩
    · intro s h
      simp only [stringFromRedisValue] at h
      show redisValueToJsonFuel (RValue.size (.data bs)) (.data bs) = _
      simp [RValue.size, redisValueToJsonFuel, stringFromRedisValue, h]
    · intro _ _ h _
      simp only [stringFromRedisValue] at h
      show redisValueToJsonFuel (RValue.size (.data bs)) (.data bs) = _
      simp [RValue.size, redisValueToJsonFuel, stringFromRedisValue, vecFromRedisValue, h,
        RValue.beq_refl]
    · intro _ _ _ h
      simp only [stringFromRedisValue] at h
      show redisValueToJsonFuel (RValue.size (.data bs)) (.data bs) = _
      simp [RValue.size, redisValueToJsonFuel, stringFromRedisValue, vecFromRedisValue, h,
        RValue.beq_refl]
    · intro items h; exact RValue.noConfusion h
  | status s =>
    refine ⟨?_, ?_, ?_, ?_⟩
    · intro t h
      simp only [stringFromRedisValue, Option.some.injEq] at h
      subst h
      rfl
    · intro _ _ h; simp [stringFromRedisValue] at h
    · intro _ _ _ h; simp [stringFromRedisValue] at h
    · intro items h; exact RValue.noConfusion h
  | okay =>
    refine ⟨?_, ?_, ?_, ?_⟩
    · intro t h
      simp only [stringFromRedisValue, Option.some.injEq] at h
      subst h
      rfl
    · intro _ _ h; simp [stringFromRedisValue] at h
    · intro _ _ _ h; simp [stringFromRedisValue] at h
    · intro items h; exact RValue.noConfusion h
  | bulk items =>
    refine ⟨?_, ?_, ?_, ?_⟩
    · intro s h; simp [stringFromRedisValue] at h
    · intro _ _ _ hw
      simp only [vecFromRedisValue, List.cons.injEq] at hw
      exact absurd (congrArg (fun l => l) hw) (by
        intro h
        exact RValue.no_self_wrap items h)
    · intro _ _ hb _; exact absurd rfl (hb items)
    · intro its h
      have hits : its = items := by
        cases h
        rfl
      subst hits
      have hg := bulk_guard_false its
      simp only [vecFromRedisValue] at hg
      show redisValueToJsonFuel (RValue.size (.bulk its)) (.bulk its) = _
      have hsz : RValue.size (.bulk its) = RValue.sizeL its + 1 := by
        simp [RValue.size, Nat.add_comm]
      rw [hsz]
      simp only [redisValueToJsonFuel, stringFromRedisValue, vecFromRedisValue]
      rw [if_neg (by rw [hg]; exact Bool.false_ne_true)]
      congr 1
      apply List.map_congr_left
      intro x hx
      exact redisValueToJsonFuel_congr (RValue.sizeL its) x (RValue.size x)
        (le_of_lt (RValue.sizeL_lt hx)) le_rfl

/-- Witness for C1 at the concrete non-aggregate reply `Data([255])`
(invalid UTF-8, so the text decode fails): one-step terminal text. -/
theorem redis_value_to_json_spec_witness :
    stringFromRedisValue (.data [255]) = none
    ∧ redis_value_to_json (.data [255]) = .str (debugRender (.data [255]))
    ∧ debugRender (.data [255]) = "Data([255])" :=
  ⟨rfl,
   (redis_value_to_json_spec (.data [255])).2.2.1
     (fun h => RValue.noConfusion h)
     (fun _ h => RValue.noConfusion h)
     (fun _ h => RValue.noConfusion h)
     rfl,
   rfl⟩

/-! ## C10: the pipeline detail parser -/

theorem get?_eq_some_getD {α : Type} (l : List α) (n : Nat) (d : α) (h : n < l.length) :
    l.get? n = some (l.getD n d) := by
  rw [List.getD_eq_getElem?_getD, List.get?_eq_getElem?, List.getElem?_eq_getElem h]
  rfl

/-- In-bounds characterization of `parseKeyDetailsAux`, generalized over
the running index. -/
theorem parseKeyDetailsAux_some (results : List RValue) :
    ∀ (ks : List String) (i : Nat), 3 * (i + ks.length) ≤ results.length →
      parseKeyDetailsAux results i ks =
        some ((List.range ks.length).map fun j =>
          { key := ks.getD j ""
            type := (stringFromRedisValue (results.getD (3 * (i + j)) .nil)).getD "unknown"
            ttl := (i64FromRedisValue (results.getD (3 * (i + j) + 1) .nil)).getD (-1)
            length := match results.getD (3 * (i + j) + 2) .nil with
              | .nil => none
              | v => i64FromRedisValue v }) := by
  intro ks
  induction ks with
  | nil =>
    intro i _
    simp [parseKeyDetailsAux]
  | cons k ks ih =>
    intro i h
    have hlen : 3 * (i + ks.length + 1) ≤ results.length := by
      simpa [Nat.mul_add, Nat.add_comm, Nat.add_assoc, Nat.add_left_comm] using h
    have h2 : 3 * i + 2 < results.length := by omega
    simp only [parseKeyDetailsAux]
    rw [get?_eq_some_getD _ _ .nil (by omega), get?_eq_some_getD _ _ .nil (by omega),
      get?_eq_some_getD _ _ .nil h2, ih (i + 1) (by omega)]
    simp only [Option.bind_eq_bind, Option.some_bind, Option.pure_def, List.length_cons,
      List.range_succ_eq_map, List.map_cons, List.map_map]
    refine congrArg some (congrArg₂ List.cons ?_ ?_)
    · simp
    · apply List.map_congr_left
      intro j hj
      have e1 : i + (j + 1) = i + 1 + j := by omega
      simp only [Function.comp_apply, List.getD_cons_succ, e1]

/-- Out-of-bounds characterization: too few replies abort the parse (the
unguarded Rust indexing panics). -/
theorem parseKeyDetailsAux_none (results : List RValue) :
    ∀ (ks : List String) (i : Nat), 3 * i ≤ results.length →
      results.length < 3 * (i + ks.length) → parseKeyDetailsAux results i ks = none := by
  intro ks
  induction ks with
  | nil =>
    intro i h1 h2
    simp at h2
    omega
  | cons k ks ih =>
    intro i h1 h2
    by_cases hc : 3 * i + 2 < results.length
    · simp only [parseKeyDetailsAux]
      rw [get?_eq_some_getD _ _ .nil (by omega), get?_eq_some_getD _ _ .nil (by omega),
        get?_eq_some_getD _ _ .nil hc,
        ih (i + 1) (by omega) (by simp only [List.length_cons] at h2; omega)]
      rfl
    · by_cases ha : 3 * i < results.length
      · by_cases hb : 3 * i + 1 < results.length
        · simp only [parseKeyDetailsAux]
          rw [get?_eq_some_getD _ _ .nil ha, get?_eq_some_getD _ _ .nil hb,
            List.get?_eq_none.mpr (by omega)]
          rfl
        · simp only [parseKeyDetailsAux]
          rw [get?_eq_some_getD _ _ .nil ha, List.get?_eq_none.mpr (by omega)]
          rfl
      · simp only [parseKeyDetailsAux]
        rw [List.get?_eq_none.mpr (by omega)]
        rfl

/-- C10.  `parse_key_details_from_pipeline` indexes the reply list at
`3i, 3i+1, 3i+2` with no bounds guard: under the precondition of at least
three replies per key it is total and yields exactly one `KeyDetail` per
key in input order (with `"unknown"` / `-1` / no size substituted for
undecodable replies, as in the third, concrete conjunct); with fewer
replies the indexing is out of bounds (modelled as `none`). -/
theorem parse_key_details_spec (keys : List String) (results : List RValue) :
    (3 * keys.length ≤ results.length →
      parse_key_details_from_pipeline keys results =
        some ((List.range keys.length).map (keyDetailAt keys results)))
    ∧ (results.length < 3 * keys.length →
      parse_key_details_from_pipeline keys results = none)
    ∧ parse_key_details_from_pipeline ["k"] [.bulk [], .status "x", .bulk []] =
        some [{ key := "k", type := "unknown", ttl := -1, length := none }] := by
  refine ⟨?_, ?_, rfl⟩
  · intro h
    rw [parse_key_details_from_pipeline, parseKeyDetailsAux_some results keys 0 (by omega)]
    congr 1
    apply List.map_congr_left
    intro j hj
    simp [keyDetailAt]
  · intro h
    exact parseKeyDetailsAux_none results keys 0 (by omega) (by omega)

/-- Witness for C10: one key with its three well-formed replies parses to
exactly its detail. -/
theorem parse_key_details_spec_witness :
    3 * (["k"] : List String).length ≤
      ([RValue.status "string", .int 120, .nil] : List RValue).length
    ∧ parse_key_details_from_pipeline ["k"] [.status "string", .int 120, .nil] =
        some [{ key := "k", type := "string", ttl := 120, length := none }] := by
  constructor
  · decide
  · have h := (parse_key_details_spec ["k"] [.status "string", .int 120, .nil]).1 (by decide)
    rw [h]
    rfl

/-! ## C3: read/write classification of the relational adapters -/

/-- Counterexample to C3 as stated: the two adapters do not share the
keyword list SELECT/SHOW/DESCRIBE/EXPLAIN/PRAGMA.  The MySQL adapter
classifies a PRAGMA input as a write (native affected count, not 0), and
the SQLite adapter classifies SHOW and DESCRIBE inputs as writes. -/
theorem execute_sql_classification_counterexample :
    mysqlIsQuery "PRAGMA table_info(t)" = false
    ∧ execute_sql "PRAGMA table_info(t)" [] 3 =
        { columns := [], rows := [], affected_rows := 3 }
    ∧ sqliteIsQuery "SHOW TABLES" = false
    ∧ execute_sqlite_sql "SHOW TABLES" [] 5 =
        { columns := [], rows := [], affected_rows := 5 }
    ∧ sqliteIsQuery "DESCRIBE t" = false :=
  ⟨rfl, rfl, rfl, rfl, rfl⟩

/-- C3 (amended).  Classification is by prefix of the trimmed uppercased
input, with per-adapter keyword lists: MySQL reads are
SELECT/SHOW/DESCRIBE/EXPLAIN and SQLite reads are SELECT/PRAGMA/EXPLAIN.
A read returns column metadata from the first row plus the row set with
affected count 0; anything else is a write returning empty column/row sets
and the native affected count.  In particular `" select * from t"`
classifies as read and `"UPDATE t SET x=1"` as write on both adapters. -/
theorem execute_sql_classification (sql : String) (myRows : List (List MyCol))
    (sqRows : List (List SqCol)) (affected : Nat) :
    ((rustStartsWith (rustToUpper (rustTrim sql)) "SELECT"
        || rustStartsWith (rustToUpper (rustTrim sql)) "SHOW"
        || rustStartsWith (rustToUpper (rustTrim sql)) "DESCRIBE"
        || rustStartsWith (rustToUpper (rustTrim sql)) "EXPLAIN") = true →
      execute_sql sql myRows affected =
        { columns := columnsOfMysql myRows
          rows := myRows.map mysql_row_to_json
          affected_rows := 0 })
    ∧ ((rustStartsWith (rustToUpper (rustTrim sql)) "SELECT"
        || rustStartsWith (rustToUpper (rustTrim sql)) "SHOW"
        || rustStartsWith (rustToUpper (rustTrim sql)) "DESCRIBE"
        || rustStartsWith (rustToUpper (rustTrim sql)) "EXPLAIN") = false →
      execute_sql sql myRows affected = { columns := [], rows := [], affected_rows := affected })
    ∧ ((rustStartsWith (rustToUpper (rustTrim sql)) "SELECT"
        || rustStartsWith (rustToUpper (rustTrim sql)) "PRAGMA"
        || rustStartsWith (rustToUpper (rustTrim sql)) "EXPLAIN") = true →
      execute_sqlite_sql sql sqRows affected =
        { columns := columnsOfSqlite sqRows
          rows := sqRows.map sqlite_row_to_json
          affected_rows := 0 })
    ∧ ((rustStartsWith (rustToUpper (rustTrim sql)) "SELECT"
        || rustStartsWith (rustToUpper (rustTrim sql)) "PRAGMA"
        || rustStartsWith (rustToUpper (rustTrim sql)) "EXPLAIN") = false →
      execute_sqlite_sql sql sqRows affected =
        { columns := [], rows := [], affected_rows := affected })
    ∧ execute_sql " select * from t" myRows affected =
        { columns := columnsOfMysql myRows
          rows := myRows.map mysql_row_to_json
          affected_rows := 0 }
    ∧ execute_sql "UPDATE t SET x=1" myRows affected =
        { columns := [], rows := [], affected_rows := affected }
    ∧ execute_sqlite_sql " select * from t" sqRows affected =
        { columns := columnsOfSqlite sqRows
          rows := sqRows.map sqlite_row_to_json
          affected_rows := 0 }
    ∧ execute_sqlite_sql "UPDATE t SET x=1" sqRows affected =
        { columns := [], rows := [], affected_rows := affected } := by
  refine ⟨?_, ?_, ?_, ?_, ?_, ?_, ?_, ?_⟩
  · intro h
    simp [execute_sql, mysqlIsQuery, h]
  · intro h
    simp [execute_sql, mysqlIsQuery, h]
  · intro h
    simp [execute_sqlite_sql, sqliteIsQuery, h]
  · intro h
    simp [execute_sqlite_sql, sqliteIsQuery, h]
  · simp [execute_sql, show mysqlIsQuery " select * from t" = true from rfl]
  · simp [execute_sql, show mysqlIsQuery "UPDATE t SET x=1" = false from rfl]
  · simp [execute_sqlite_sql, show sqliteIsQuery " select * from t" = true from rfl]
  · simp [execute_sqlite_sql, show sqliteIsQuery "UPDATE t SET x=1" = false from rfl]

/-- Witness for C3 (amended) at `"explain select 1"`, a read on both
adapters. -/
theorem execute_sql_classification_witness :
    (rustStartsWith (rustToUpper (rustTrim "explain select 1")) "SELECT"
      || rustStartsWith (rustToUpper (rustTrim "explain select 1")) "SHOW"
      || rustStartsWith (rustToUpper (rustTrim "explain select 1")) "DESCRIBE"
      || rustStartsWith (rustToUpper (rustTrim "explain select 1")) "EXPLAIN") = true
    ∧ execute_sql "explain select 1" [] 7 =
        { columns := [], rows := [], affected_rows := 0 } := by
  refine ⟨rfl, ?_⟩
  exact (execute_sql_classification "explain select 1" [] [] 7).1 rfl

/-! ## C4: SQLite normalization is tag-dispatched, not ladder-authoritative -/

/-- Counterexample to C4 as stated: a cell whose declared tag is
`INTEGER` but whose stored value is the text `"abc"` normalizes to `Null`
(the INTEGER arm attempts only the integer/bool decodes), while the
integer → float → text → null ladder would have produced the text
`"abc"`; so the declared tag does govern which decode is attempted. -/
theorem sqlite_ladder_counterexample :
    sqliteDecodeValue "INTEGER" (.text "abc") = .null
    ∧ sqliteLadderSpec (.text "abc") = .str "abc"
    ∧ sqliteDecodeValue "INTEGER" (.text "abc") ≠ sqliteLadderSpec (.text "abc") :=
  ⟨rfl, rfl, fun h => JValue.noConfusion h⟩

/-- C4 (amended).  For the weakly-typed dialect the declared tag governs
the listed storage-class tags — NULL, INTEGER, REAL, TEXT, BLOB each
attempt only their own decodes, yielding `Null` on failure (never falling
through to another type's decode) — and the ordered fallback ladder
integer → float → text → null applies exactly to the unlisted tags. -/
theorem sqlite_decode_tag_dispatch (tag : String) (v : SVal) :
    (tag ∉ ["NULL", "INTEGER", "REAL", "TEXT", "BLOB"] →
      sqliteDecodeValue tag v = sqliteLadderSpec v)
    ∧ sqliteDecodeValue "NULL" v = .null
    ∧ sqliteDecodeValue "BLOB" v = .str "<BLOB>"
    ∧ (∀ s, sqliteDecodeValue "INTEGER" (.text s) = .null)
    ∧ (∀ x, sqliteDecodeValue "INTEGER" (.real x) = .null)
    ∧ (∀ i, sqliteDecodeValue "TEXT" (.int i) = .null)
    ∧ (∀ x, sqliteDecodeValue "TEXT" (.real x) = .null) := by
  refine ⟨?_, rfl, rfl, fun _ => rfl, fun _ => rfl, fun _ => rfl, fun _ => rfl⟩
  intro hmem
  have h1 : tag ≠ "NULL" := fun h => hmem (by rw [h]; simp)
  have h2 : tag ≠ "INTEGER" := fun h => hmem (by rw [h]; simp)
  have h3 : tag ≠ "REAL" := fun h => hmem (by rw [h]; simp)
  have h4 : tag ≠ "TEXT" := fun h => hmem (by rw [h]; simp)
  have h5 : tag ≠ "BLOB" := fun h => hmem (by rw [h]; simp)
  rw [sqliteDecodeValue.eq_def, sqliteLadderSpec.eq_def]
  split
  · exact absurd rfl h1
  · exact absurd rfl h2
  · exact absurd rfl h3
  · exact absurd rfl h4
  · exact absurd rfl h5
  · rfl

/-- Witness for C4 (amended) at the unlisted tag `"VARCHAR"` with stored
text, where the ladder applies and yields the text. -/
theorem sqlite_decode_tag_dispatch_witness :
    "VARCHAR" ∉ (["NULL", "INTEGER", "REAL", "TEXT", "BLOB"] : List String)
    ∧ sqliteDecodeValue "VARCHAR" (.text "x") = sqliteLadderSpec (.text "x")
    ∧ sqliteLadderSpec (.text "x") = .str "x" := by
  refine ⟨by decide, ?_, rfl⟩
  exact (sqlite_decode_tag_dispatch "VARCHAR" (.text "x")).1 (by decide)

/-! ## C9: blob normalization differs between the two dialects -/

/-- Counterexample to C9 as stated: in the MySQL adapter a BLOB-typed cell
holding the raw bytes `[97, 98, 99]` normalizes — through the wildcard
string fallback — to exactly those raw bytes rendered as the text
`"abc"`, not to any fixed placeholder. -/
theorem mysql_blob_counterexample :
    utf8Decode [97, 98, 99] = some "abc"
    ∧ mysqlDecodeValue "BLOB" (.vblob [97, 98, 99]) = .str "abc" :=
  ⟨rfl, rfl⟩

/-- C9 (amended).  Only the weakly-typed dialect renders blobs as the
fixed placeholder `<BLOB>`; the strongly-typed dialect's BLOB tag falls to
the generic string fallback, rendering the raw bytes as text when they
decode as UTF-8 and `Null` otherwise. -/
theorem blob_normalization (v : SVal) (bs : List Nat) :
    sqliteDecodeValue "BLOB" v = .str "<BLOB>"
    ∧ mysqlDecodeValue "BLOB" (.vblob bs) =
        (match utf8Decode bs with
         | some s => .str s
         | none => .null) :=
  ⟨rfl, rfl⟩

/-! ## C5: memcached point get -/

/-- C5.  For a present key: a zlib stream whose decompression is non-empty
returns the decompressed content as text — first trying the raw bytes,
then (when more than 4 bytes) the bytes after the 4-byte prefix; when both
probes fail the original bytes are returned rendered as text; an absent
key succeeds with the literal `"(nil)"` marker. -/
theorem get_memcached_value_spec (zlib : List Nat → Option (List Nat)) (bytes : List Nat) :
    (∀ d, zlib bytes = some d → d ≠ [] →
      get_memcached_value zlib (some bytes) = utf8Lossy d)
    ∧ (zlibNonempty zlib bytes = none → bytes.length > 4 →
        ∀ d2, zlib (bytes.drop 4) = some d2 → d2 ≠ [] →
          get_memcached_value zlib (some bytes) = utf8Lossy d2)
    ∧ (zlibNonempty zlib bytes = none →
        (bytes.length > 4 → zlibNonempty zlib (bytes.drop 4) = none) →
        get_memcached_value zlib (some bytes) = utf8Lossy bytes)
    ∧ get_memcached_value zlib none = "(nil)" := by
  refine ⟨?_, ?_, ?_, rfl⟩
  · intro d hz hd
    simp [get_memcached_value, zlibNonempty, hz, hd]
  · intro h1 h4 d2 hz2 hd2
    simp only [get_memcached_value, h1]
    rw [if_pos h4]
    simp [zlibNonempty, hz2, hd2]
  · intro h1 h2
    simp only [get_memcached_value, h1]
    by_cases h4 : bytes.length > 4
    · rw [if_pos h4, h2 h4]
    · rw [if_neg h4]

/-- Witness for C5: bytes `[9]` decompress (per the oracle) to `"hi"`. -/
theorem get_memcached_value_spec_witness :
    (fun bs => if bs = [9] then some [104, 105] else none : List Nat → Option (List Nat)) [9] =
      some [104, 105]
    ∧ ([104, 105] : List Nat) ≠ []
    ∧ get_memcached_value (fun bs => if bs = [9] then some [104, 105] else none)
        (some [9]) = utf8Lossy [104, 105]
    ∧ utf8Lossy [104, 105] = "hi" := by
  refine ⟨rfl, by decide, ?_, rfl⟩
  exact (get_memcached_value_spec (fun bs => if bs = [9] then some [104, 105] else none)
    [9]).1 [104, 105] rfl (by decide)

/-! ## C6: memcached key enumeration -/

theorem collectSlabsAux_nodup : ∀ (lines : List String) (acc : List Nat), acc.Nodup →
    (collectSlabsAux lines acc).Nodup := by
  intro lines
  induction lines with
  | nil => intro acc h; exact h
  | cons line rest ih =>
    intro acc h
    simp only [collectSlabsAux]
    split
    · exact h
    · split
      · split
        · split
          · split
            · exact ih acc h
            · rename_i hc
              refine ih _ ?_
              rw [List.nodup_append]
              refine ⟨h, List.nodup_singleton _, ?_⟩
              intro a ha hb
              rw [List.mem_singleton] at hb
              subst hb
              exact hc (List.elem_eq_true_of_mem ha)
          · exact ih acc h
        · exact ih acc h
      · exact ih acc h

/-- C6.  Key enumeration as a function of the received protocol lines:
distinct slab ids are collected from `STAT items:<slabId>:*` lines (other
lines ignored), one cachedump per slab is issued with the fixed page cap
100, keys are the second tokens of `ITEM <key> ...` lines aggregated
across slabs, and the optional filter is a case-insensitive substring
match.  On the spec's scenario (slabs 1 and 2; alpha/beta in slab 1, gamma
in slab 2) the unfiltered result is alpha, beta, gamma and filter `"ga"`
keeps exactly gamma. -/
theorem memcached_enumeration_spec :
    (∀ lines : List String, (collectSlabs lines).Nodup)
    ∧ (∀ slab_id : Nat,
        cachedumpCmd slab_id = "stats cachedump " ++ toString slab_id ++ " 100\r\n")
    ∧ collectSlabs ["STAT items:1:number 3\r\n", "STAT items:2:number 1\r\n", "END\r\n"] =
        [1, 2]
    ∧ list_keys_via_tcp
        ["STAT items:1:number 3\r\n", "STAT items:2:number 1\r\n", "END\r\n"]
        (fun slab_id =>
          if slab_id = 1 then
            ["ITEM alpha [10 b; 0 s]\r\n", "ITEM beta [10 b; 0 s]\r\n", "END\r\n"]
          else if slab_id = 2 then ["ITEM gamma [5 b; 0 s]\r\n", "END\r\n"]
          else ["END\r\n"]) = ["alpha", "beta", "gamma"]
    ∧ get_memcached_keys none ["alpha", "beta", "gamma"] =
        [{ key := "alpha", size := 0, expiration := 0 },
         { key := "beta", size := 0, expiration := 0 },
         { key := "gamma", size := 0, expiration := 0 }]
    ∧ get_memcached_keys (some "ga") ["alpha", "beta", "gamma"] =
        [{ key := "gamma", size := 0, expiration := 0 }]
    ∧ get_memcached_keys (some "GA") ["alpha", "beta", "gamma"] =
        [{ key := "gamma", size := 0, expiration := 0 }] :=
  ⟨fun lines => collectSlabsAux_nodup lines [] (List.nodup_nil),
   fun _ => rfl, rfl, rfl, rfl, rfl, rfl⟩

/-! ## Registry lemmas -/

theorem lookupKV_insert_self {α β : Type} [DecidableEq α] (l : List (α × β)) (k : α) (v : β) :
    lookupKV (insertKV l k v) k = some v := by
  simp [lookupKV, insertKV]

/-- A successful fetch-path resolve leaves the handle registered under the
resolved key, with the profile present and of the right kind. -/
theorem redisFetchPath_ok {p : Int → Option Connection} {o : String → Except String Unit}
    {st st' : RedisSt} {cid : Int} {db : Option Nat} {h : Nat}
    (heq : redisFetchPath p o st cid db = (.ok h, st')) :
    ∃ c, p cid = some c ∧ c.db_type = "redis" ∧
      lookupKV st'.clients (redisKey cid (redisDbIndex c db)) = some h := by
  unfold redisFetchPath at heq
  cases hp : p cid with
  | none => rw [hp] at heq; simp at heq
  | some c =>
    rw [hp] at heq
    dsimp only at heq
    by_cases ht : c.db_type = "redis"
    · rw [if_neg (by simp [ht])] at heq
      cases hl : lookupKV st.clients (redisKey cid (redisDbIndex c db)) with
      | some client =>
        rw [hl] at heq
        dsimp only at heq
        simp only [Prod.mk.injEq, Except.ok.injEq] at heq
        exact ⟨c, rfl, ht, by rw [← heq.2, hl, heq.1]⟩
      | none =>
        rw [hl] at heq
        dsimp only at heq
        cases hh : c.host with
        | none => rw [hh] at heq; simp at heq
        | some host =>
          rw [hh] at heq
          dsimp only at heq
          cases ho : o (redisUrl host (c.port.getD 6379) (c.password.getD "")
              (redisDbIndex c db)) with
          | error e => rw [ho] at heq; simp at heq
          | ok u =>
            rw [ho] at heq
            dsimp only at heq
            simp only [Prod.mk.injEq, Except.ok.injEq] at heq
            refine ⟨c, rfl, ht, ?_⟩
            rw [← heq.2, ← heq.1]
            exact lookupKV_insert_self st.clients _ st.nextId
    · rw [if_pos (by simp [ht])] at heq
      simp at heq

/-- A client registered under the resolved key is returned as-is by the
next resolve. -/
theorem redis_second_hit {p : Int → Option Connection} {o : String → Except String Unit}
    {st' : RedisSt} {cid : Int} {db : Option Nat} {c : Connection} {h : Nat}
    (hp : p cid = some c) (ht : c.db_type = "redis")
    (hl : lookupKV st'.clients (redisKey cid (redisDbIndex c db)) = some h) :
    get_or_create_redis_client p o st' cid db = (.ok h, st') := by
  cases db with
  | some d =>
    have hd : redisDbIndex c (some d) = d := rfl
    rw [hd] at hl
    unfold get_or_create_redis_client
    dsimp only
    rw [hl]
  | none =>
    unfold get_or_create_redis_client redisFetchPath
    dsimp only
    rw [hp]
    dsimp only
    rw [if_neg (by simp [ht]), hl]

/-- A successful MySQL create path registers a fresh open pool. -/
theorem mysqlCreatePath_ok {p : Int → Option Connection} {c : String → Except String Unit}
    {st st' : MysqlSt} {cid : Int} {h : PoolHandle}
    (heq : mysqlCreatePath p c st cid = (.ok h, st')) :
    lookupKV st'.pools cid = some h ∧ h.closed = false := by
  unfold mysqlCreatePath at heq
  cases hp : p cid with
  | none => rw [hp] at heq; simp at heq
  | some conn =>
    rw [hp] at heq
    dsimp only at heq
    by_cases ht : conn.db_type = "mysql"
    · rw [if_neg (by simp [ht])] at heq
      cases hc : c (mysqlUrl (conn.username.getD "root") (conn.password.getD "")
          (conn.host.getD "localhost") (conn.port.getD 3306) (conn.database.getD "")) with
      | error e => rw [hc] at heq; simp at heq
      | ok u =>
        rw [hc] at heq
        dsimp only at heq
        simp only [Prod.mk.injEq, Except.ok.injEq] at heq
        rw [← heq.2, ← heq.1]
        exact ⟨lookupKV_insert_self st.pools cid _, rfl⟩
    · rw [if_pos (by simp [ht])] at heq
      simp at heq

/-- A successful MySQL resolve leaves an open pool registered under the
connection id. -/
theorem mysql_ok_registered {p : Int → Option Connection} {c : String → Except String Unit}
    {st st' : MysqlSt} {cid : Int} {h : PoolHandle}
    (heq : get_or_create_pool p c st cid = (.ok h, st')) :
    lookupKV st'.pools cid = some h ∧ h.closed = false := by
  unfold get_or_create_pool at heq
  cases hl : lookupKV st.pools cid with
  | some pool =>
    rw [hl] at heq
    dsimp only at heq
    cases hcl : pool.closed with
    | false =>
      rw [hcl] at heq
      rw [if_pos (by simp)] at heq
      simp only [Prod.mk.injEq, Except.ok.injEq] at heq
      rw [← heq.2, ← heq.1]
      exact ⟨hl, hcl⟩
    | true =>
      rw [hcl] at heq
      rw [if_neg (by simp)] at heq
      exact mysqlCreatePath_ok heq
  | none =>
    rw [hl] at heq
    exact mysqlCreatePath_ok heq

/-- An open pool registered under the connection id is returned as-is by
the next resolve. -/
theorem mysql_second_hit {p : Int → Option Connection} {c : String → Except String Unit}
    {st' : MysqlSt} {cid : Int} {h : PoolHandle}
    (hl : lookupKV st'.pools cid = some h) (hcl : h.closed = false) :
    get_or_create_pool p c st' cid = (.ok h, st') := by
  unfold get_or_create_pool
  rw [hl]
  dsimp only
  rw [hcl]
  simp

/-- A successful SQLite create path registers a fresh open pool. -/
theorem sqliteCreatePath_ok {p : Int → Option Connection} {c : String → Except String Unit}
    {st st' : SqliteSt} {cid : Int} {h : PoolHandle}
    (heq : sqliteCreatePath p c st cid = (.ok h, st')) :
    lookupKV st'.pools cid = some h ∧ h.closed = false := by
  unfold sqliteCreatePath at heq
  cases hp : p cid with
  | none => rw [hp] at heq; simp at heq
  | some conn =>
    rw [hp] at heq
    dsimp only at heq
    by_cases ht : conn.db_type = "sqlite"
    · rw [if_neg (by simp [ht])] at heq
      cases hd : conn.database with
      | none => rw [hd] at heq; simp at heq
      | some db_path =>
        rw [hd] at heq
        dsimp only at heq
        cases hc : c ("sqlite://" ++ db_path) with
        | error e => rw [hc] at heq; simp at heq
        | ok u =>
          rw [hc] at heq
          dsimp only at heq
          simp only [Prod.mk.injEq, Except.ok.injEq] at heq
          rw [← heq.2, ← heq.1]
          exact ⟨lookupKV_insert_self st.pools cid _, rfl⟩
    · rw [if_pos (by simp [ht])] at heq
      simp at heq

/-- A successful SQLite resolve leaves an open pool registered under the
connection id. -/
theorem sqlite_ok_registered {p : Int → Option Connection} {c : String → Except String Unit}
    {st st' : SqliteSt} {cid : Int} {h : PoolHandle}
    (heq : get_or_create_sqlite_pool p c st cid = (.ok h, st')) :
    lookupKV st'.pools cid = some h ∧ h.closed = false := by
  unfold get_or_create_sqlite_pool at heq
  cases hl : lookupKV st.pools cid with
  | some pool =>
    rw [hl] at heq
    dsimp only at heq
    cases hcl : pool.closed with
    | false =>
      rw [hcl] at heq
      rw [if_pos (by simp)] at heq
      simp only [Prod.mk.injEq, Except.ok.injEq] at heq
      rw [← heq.2, ← heq.1]
      exact ⟨hl, hcl⟩
    | true =>
      rw [hcl] at heq
      rw [if_neg (by simp)] at heq
      exact sqliteCreatePath_ok heq
  | none =>
    rw [hl] at heq
    exact sqliteCreatePath_ok heq

/-- An open pool registered under the connection id is returned as-is by
the next SQLite resolve. -/
theorem sqlite_second_hit {p : Int → Option Connection} {c : String → Except String Unit}
    {st' : SqliteSt} {cid : Int} {h : PoolHandle}
    (hl : lookupKV st'.pools cid = some h) (hcl : h.closed = false) :
    get_or_create_sqlite_pool p c st' cid = (.ok h, st') := by
  unfold get_or_create_sqlite_pool
  rw [hl]
  dsimp only
  rw [hcl]
  simp

/-! ## C2: handle reuse across consecutive resolves -/

/-- Counterexample to C2 as stated ("for every backend kind"): the
memcached `get_or_create_client` keeps no registry — with a valid
memcached profile, two consecutive successful calls connect twice and
return two distinct fresh handles (0 then 1), and no registry entry ever
exists. -/
theorem memcached_no_reuse_counterexample :
    get_or_create_client
        (fun i => if i = 1 then
          some ⟨1, "c", "memcached", some "h", none, none, none, none⟩ else none)
        (fun _ => .ok ()) 0 1 = (.ok 0, 1)
    ∧ get_or_create_client
        (fun i => if i = 1 then
          some ⟨1, "c", "memcached", some "h", none, none, none, none⟩ else none)
        (fun _ => .ok ()) 1 1 = (.ok 1, 2)
    ∧ (0 : Nat) ≠ 1 :=
  ⟨rfl, rfl, by decide⟩

/-- C2 (amended).  For the redis, MySQL and SQLite backends a second
resolve after a successful one returns the very same handle and leaves the
state unchanged (the handle was created on first use, registered, and is
reused; pools are reused while their `is_closed` flag is false, redis
clients unconditionally).  The memcached backend keeps no registry and
reconnects on every call (see the counterexample). -/
theorem resolve_reuses_handle :
    (∀ (p : Int → Option Connection) (o : String → Except String Unit) (st : RedisSt)
        (cid : Int) (db : Option Nat) (h : Nat) (st' : RedisSt),
      get_or_create_redis_client p o st cid db = (.ok h, st') →
        get_or_create_redis_client p o st' cid db = (.ok h, st'))
    ∧ (∀ (p : Int → Option Connection) (c : String → Except String Unit) (st : MysqlSt)
        (cid : Int) (h : PoolHandle) (st' : MysqlSt),
      get_or_create_pool p c st cid = (.ok h, st') →
        h.closed = false ∧ get_or_create_pool p c st' cid = (.ok h, st'))
    ∧ (∀ (p : Int → Option Connection) (c : String → Except String Unit) (st : SqliteSt)
        (cid : Int) (h : PoolHandle) (st' : SqliteSt),
      get_or_create_sqlite_pool p c st cid = (.ok h, st') →
        h.closed = false ∧ get_or_create_sqlite_pool p c st' cid = (.ok h, st')) := by
  refine ⟨?_, ?_, ?_⟩
  · intro p o st cid db h st' heq
    unfold get_or_create_redis_client at heq
    cases db with
    | some d =>
      dsimp only at heq
      cases hl : lookupKV st.clients (redisKey cid d) with
      | some client =>
        rw [hl] at heq
        dsimp only at heq
        simp only [Prod.mk.injEq, Except.ok.injEq] at heq
        unfold get_or_create_redis_client
        rw [← heq.2]
        dsimp only
        rw [hl, heq.1]
      | none =>
        rw [hl] at heq
        obtain ⟨c, hp, ht, hl'⟩ := redisFetchPath_ok heq
        exact redis_second_hit hp ht hl'
    | none =>
      dsimp only at heq
      obtain ⟨c, hp, ht, hl'⟩ := redisFetchPath_ok heq
      exact redis_second_hit hp ht hl'
  · intro p c st cid h st' heq
    obtain ⟨hl, hcl⟩ := mysql_ok_registered heq
    exact ⟨hcl, mysql_second_hit hl hcl⟩
  · intro p c st cid h st' heq
    obtain ⟨hl, hcl⟩ := sqlite_ok_registered heq
    exact ⟨hcl, sqlite_second_hit hl hcl⟩

/-- Witness for C2 (amended): a concrete first resolve creates and caches
redis client 0; the second resolve returns the same handle and state. -/
theorem resolve_reuses_handle_witness :
    get_or_create_redis_client
        (fun i => if i = 1 then
          some ⟨1, "c", "redis", some "h", some 6380, none, none, some "2"⟩ else none)
        (fun _ => .ok ()) ⟨[], 0⟩ 1 none = (.ok 0, ⟨[("1:2", 0)], 1⟩)
    ∧ get_or_create_redis_client
        (fun i => if i = 1 then
          some ⟨1, "c", "redis", some "h", some 6380, none, none, some "2"⟩ else none)
        (fun _ => .ok ()) ⟨[("1:2", 0)], 1⟩ 1 none = (.ok 0, ⟨[("1:2", 0)], 1⟩) :=
  ⟨rfl,
   resolve_reuses_handle.1
     (fun i => if i = 1 then
       some ⟨1, "c", "redis", some "h", some 6380, none, none, some "2"⟩ else none)
     (fun _ => .ok ()) ⟨[], 0⟩ 1 none 0 ⟨[("1:2", 0)], 1⟩ rfl⟩

/-! ## C7: failed resolves never touch the registry -/

theorem redisFetchPath_error {p : Int → Option Connection} {o : String → Except String Unit}
    {st st2 : RedisSt} {cid : Int} {db : Option Nat} {e : String}
    (heq : redisFetchPath p o st cid db = (.error e, st2)) : st2 = st := by
  unfold redisFetchPath at heq
  cases hp : p cid with
  | none =>
    rw [hp] at heq
    dsimp only at heq
    simp only [Prod.mk.injEq] at heq
    exact heq.2.symm
  | some c =>
    rw [hp] at heq
    dsimp only at heq
    by_cases ht : c.db_type ≠ "redis"
    · rw [if_pos ht] at heq
      simp only [Prod.mk.injEq] at heq
      exact heq.2.symm
    · rw [if_neg ht] at heq
      cases hl : lookupKV st.clients (redisKey cid (redisDbIndex c db)) with
      | some client =>
        rw [hl] at heq
        simp at heq
      | none =>
        rw [hl] at heq
        dsimp only at heq
        cases hh : c.host with
        | none =>
          rw [hh] at heq
          simp only [Prod.mk.injEq] at heq
          exact heq.2.symm
        | some host =>
          rw [hh] at heq
          dsimp only at heq
          cases ho : o (redisUrl host (c.port.getD 6379) (c.password.getD "")
              (redisDbIndex c db)) with
          | error e2 =>
            rw [ho] at heq
            simp only [Prod.mk.injEq] at heq
            exact heq.2.symm
          | ok u =>
            rw [ho] at heq
            simp at heq

theorem mysqlCreatePath_error {p : Int → Option Connection} {c : String → Except String Unit}
    {st st2 : MysqlSt} {cid : Int} {e : String}
    (heq : mysqlCreatePath p c st cid = (.error e, st2)) : st2 = st := by
  unfold mysqlCreatePath at heq
  cases hp : p cid with
  | none =>
    rw [hp] at heq
    dsimp only at heq
    simp only [Prod.mk.injEq] at heq
    exact heq.2.symm
  | some conn =>
    rw [hp] at heq
    dsimp only at heq
    by_cases ht : conn.db_type ≠ "mysql"
    · rw [if_pos ht] at heq
      simp only [Prod.mk.injEq] at heq
      exact heq.2.symm
    · rw [if_neg ht] at heq
      cases hc : c (mysqlUrl (conn.username.getD "root") (conn.password.getD "")
          (conn.host.getD "localhost") (conn.port.getD 3306) (conn.database.getD "")) with
      | error e2 =>
        rw [hc] at heq
        simp only [Prod.mk.injEq] at heq
        exact heq.2.symm
      | ok u =>
        rw [hc] at heq
        simp at heq

theorem sqliteCreatePath_error {p : Int → Option Connection} {c : String → Except String Unit}
    {st st2 : SqliteSt} {cid : Int} {e : String}
    (heq : sqliteCreatePath p c st cid = (.error e, st2)) : st2 = st := by
  unfold sqliteCreatePath at heq
  cases hp : p cid with
  | none =>
    rw [hp] at heq
    dsimp only at heq
    simp only [Prod.mk.injEq] at heq
    exact heq.2.symm
  | some conn =>
    rw [hp] at heq
    dsimp only at heq
    by_cases ht : conn.db_type ≠ "sqlite"
    · rw [if_pos ht] at heq
      simp only [Prod.mk.injEq] at heq
      exact heq.2.symm
    · rw [if_neg ht] at heq
      cases hd : conn.database with
      | none =>
        rw [hd] at heq
        simp only [Prod.mk.injEq] at heq
        exact heq.2.symm
      | some db_path =>
        rw [hd] at heq
        dsimp only at heq
        cases hc : c ("sqlite://" ++ db_path) with
        | error e2 =>
          rw [hc] at heq
          simp only [Prod.mk.injEq] at heq
          exact heq.2.symm
        | ok u =>
          rw [hc] at heq
          simp at heq

/-- C7.  Resolve is atomic with respect to the handle registry: whenever a
resolve fails — profile missing, kind mismatch, missing connection data,
or connect failure — the returned state is exactly the input state, so no
registry entry is inserted (and no fresh handle id is consumed) for that
key, and the next resolve retries the full creation path. -/
theorem resolve_failure_atomic :
    (∀ (p : Int → Option Connection) (o : String → Except String Unit) (st : RedisSt)
        (cid : Int) (db : Option Nat) (e : String) (st2 : RedisSt),
      get_or_create_redis_client p o st cid db = (.error e, st2) →
        st2.clients = st.clients ∧ st2.nextId = st.nextId)
    ∧ (∀ (p : Int → Option Connection) (c : String → Except String Unit) (st : MysqlSt)
        (cid : Int) (e : String) (st2 : MysqlSt),
      get_or_create_pool p c st cid = (.error e, st2) →
        st2.pools = st.pools ∧ st2.nextId = st.nextId)
    ∧ (∀ (p : Int → Option Connection) (c : String → Except String Unit) (st : SqliteSt)
        (cid : Int) (e : String) (st2 : SqliteSt),
      get_or_create_sqlite_pool p c st cid = (.error e, st2) →
        st2.pools = st.pools ∧ st2.nextId = st.nextId) := by
  refine ⟨?_, ?_, ?_⟩
  · intro p o st cid db e st2 heq
    suffices h : st2 = st by rw [h]; exact ⟨rfl, rfl⟩
    unfold get_or_create_redis_client at heq
    cases db with
    | some d =>
      dsimp only at heq
      cases hl : lookupKV st.clients (redisKey cid d) with
      | some client => rw [hl] at heq; simp at heq
      | none => rw [hl] at heq; exact redisFetchPath_error heq
    | none =>
      dsimp only at heq
      exact redisFetchPath_error heq
  · intro p c st cid e st2 heq
    suffices h : st2 = st by rw [h]; exact ⟨rfl, rfl⟩
    unfold get_or_create_pool at heq
    cases hl : lookupKV st.pools cid with
    | some pool =>
      rw [hl] at heq
      dsimp only at heq
      cases hcl : pool.closed with
      | false =>
        rw [hcl] at heq
        rw [if_pos (by simp)] at heq
        simp at heq
      | true =>
        rw [hcl] at heq
        rw [if_neg (by simp)] at heq
        exact mysqlCreatePath_error heq
    | none =>
      rw [hl] at heq
      exact mysqlCreatePath_error heq
  · intro p c st cid e st2 heq
    suffices h : st2 = st by rw [h]; exact ⟨rfl, rfl⟩
    unfold get_or_create_sqlite_pool at heq
    cases hl : lookupKV st.pools cid with
    | some pool =>
      rw [hl] at heq
      dsimp only at heq
      cases hcl : pool.closed with
      | false =>
        rw [hcl] at heq
        rw [if_pos (by simp)] at heq
        simp at heq
      | true =>
        rw [hcl] at heq
        rw [if_neg (by simp)] at heq
        exact sqliteCreatePath_error heq
    | none =>
      rw [hl] at heq
      exact sqliteCreatePath_error heq

/-- Witness for C7: a resolve failing on a missing profile leaves a
non-empty registry untouched. -/
theorem resolve_failure_atomic_witness :
    get_or_create_redis_client (fun _ => none) (fun _ => .ok ())
        ⟨[("7:0", 42)], 5⟩ 1 none =
      (.error "Connection not found", ⟨[("7:0", 42)], 5⟩)
    ∧ (RedisSt.mk [("7:0", 42)] 5).clients = (RedisSt.mk [("7:0", 42)] 5).clients :=
  ⟨rfl,
   (resolve_failure_atomic.1 (fun _ => none) (fun _ => .ok ()) ⟨[("7:0", 42)], 5⟩ 1 none
     "Connection not found" ⟨[("7:0", 42)], 5⟩ rfl).1⟩

/-! ## C8: error taxonomy on a registry miss -/

/-- Two strings differ when the first has a non-empty fixed head differing
from the other's head, whatever is appended (used to tell a wrapped
connect-failure message apart from the fixed lookup errors). -/
theorem append_ne_of_head_ne (pre e q : String) (hpre : pre.data ≠ [])
    (hne : pre.data.head? ≠ q.data.head?) : pre ++ e ≠ q := by
  intro h
  apply hne
  rw [← h, String.data_append]
  cases hd : pre.data with
  | nil => exact absurd hd hpre
  | cons c cs => rfl

/-- On a miss, the redis resolve fails with the profile-not-found message
exactly when the profile is absent, and with the kind-mismatch message
exactly when the fetched profile is not a redis profile; in both cases the
state (registry and handle counter) is unchanged. -/
theorem redis_miss_errors {p : Int → Option Connection} {o : String → Except String Unit}
    {st : RedisSt} {cid : Int} {db : Option Nat}
    (hm : ∀ d, db = some d → lookupKV st.clients (redisKey cid d) = none) :
    (get_or_create_redis_client p o st cid db = (.error "Connection not found", st) ↔
      p cid = none)
    ∧ (get_or_create_redis_client p o st cid db =
        (.error "Only Redis is supported for this operation", st) ↔
      ∃ c, p cid = some c ∧ c.db_type ≠ "redis") := by
  have hred : get_or_create_redis_client p o st cid db = redisFetchPath p o st cid db := by
    unfold get_or_create_redis_client
    cases db with
    | some d =>
      dsimp only
      rw [hm d rfl]
    | none => rfl
  rw [hred]
  unfold redisFetchPath
  cases hp : p cid with
  | none =>
    refine ⟨by simp, ?_⟩
    constructor
    · intro heq
      simp only [Prod.mk.injEq, Except.error.injEq] at heq
      exact absurd heq.1 (by decide)
    · intro ⟨c, hc, _⟩
      exact absurd hc (by simp)
  | some c =>
    dsimp only
    by_cases ht : c.db_type ≠ "redis"
    · rw [if_pos ht]
      refine ⟨?_, ?_⟩
      · constructor
        · intro heq
          simp only [Prod.mk.injEq, Except.error.injEq] at heq
          exact absurd heq.1 (by decide)
        · intro heq
          exact absurd heq (by simp)
      · constructor
        · intro _
          exact ⟨c, rfl, ht⟩
        · intro _
          rfl
    · rw [if_neg ht]
      rw [not_not] at ht
      have hnone : ∀ q : String,
          (q = "Connection not found" ∨ q = "Only Redis is supported for this operation") →
          (match lookupKV st.clients (redisKey cid (redisDbIndex c db)) with
            | some client => (Except.ok client, st)
            | none =>
              match c.host with
              | none => (Except.error "Host is required", st)
              | some host =>
                match o (redisUrl host (c.port.getD 6379) (c.password.getD "")
                    (redisDbIndex c db)) with
                | Except.error e =>
                  (Except.error ("Failed to create Redis client: " ++ e), st)
                | Except.ok _ =>
                  (Except.ok st.nextId,
                    ⟨insertKV st.clients (redisKey cid (redisDbIndex c db)) st.nextId,
                      st.nextId + 1⟩)) ≠ (Except.error q, st) := by
        intro q hq heq
        cases hl : lookupKV st.clients (redisKey cid (redisDbIndex c db)) with
        | some client => rw [hl] at heq; simp at heq
        | none =>
          rw [hl] at heq
          cases hh : c.host with
          | none =>
            rw [hh] at heq
            simp only [Prod.mk.injEq, Except.error.injEq] at heq
            rcases hq with hq | hq <;> subst hq <;> exact absurd heq.1 (by decide)
          | some host =>
            rw [hh] at heq
            dsimp only at heq
            cases ho : o (redisUrl host (c.port.getD 6379) (c.password.getD "")
                (redisDbIndex c db)) with
            | error e2 =>
              rw [ho] at heq
              simp only [Prod.mk.injEq, Except.error.injEq] at heq
              rcases hq with hq | hq <;> subst hq <;>
                exact append_ne_of_head_ne "Failed to create Redis client: " e2 _
                  (by decide) (by decide) heq.1
            | ok u =>
              rw [ho] at heq
              simp at heq
      refine ⟨?_, ?_⟩
      · constructor
        · intro heq
          exact absurd heq (hnone _ (Or.inl rfl))
        · intro heq
          exact absurd heq (by simp [hp])
      · constructor
        · intro heq
          exact absurd heq (hnone _ (Or.inr rfl))
        · intro ⟨c2, hc2, ht2⟩
          cases hc2
          exact absurd ht ht2

/-- On a miss (no cached pool, or only a closed one), the MySQL resolve
fails with the profile-not-found / kind-mismatch messages exactly under
the corresponding profile conditions, leaving the state unchanged. -/
theorem mysql_miss_errors {p : Int → Option Connection} {c : String → Except String Unit}
    {st : MysqlSt} {cid : Int}
    (hm : ∀ pool, lookupKV st.pools cid = some pool → pool.closed = true) :
    (get_or_create_pool p c st cid = (.error "Connection not found", st) ↔ p cid = none)
    ∧ (get_or_create_pool p c st cid = (.error "Only MySQL is supported for now", st) ↔
      ∃ conn, p cid = some conn ∧ conn.db_type ≠ "mysql") := by
  have hred : get_or_create_pool p c st cid = mysqlCreatePath p c st cid := by
    unfold get_or_create_pool
    cases hl : lookupKV st.pools cid with
    | some pool =>
      dsimp only
      rw [hm pool hl]
      rw [if_neg (by simp)]
    | none => rfl
  rw [hred]
  unfold mysqlCreatePath
  cases hp : p cid with
  | none =>
    refine ⟨by simp, ?_⟩
    constructor
    · intro heq
      simp only [Prod.mk.injEq, Except.error.injEq] at heq
      exact absurd heq.1 (by decide)
    · intro ⟨conn, hc, _⟩
      exact absurd hc (by simp)
  | some conn =>
    dsimp only
    by_cases ht : conn.db_type ≠ "mysql"
    · rw [if_pos ht]
      refine ⟨?_, ?_⟩
      · constructor
        · intro heq
          simp only [Prod.mk.injEq, Except.error.injEq] at heq
          exact absurd heq.1 (by decide)
        · intro heq
          exact absurd heq (by simp)
      · exact ⟨fun _ => ⟨conn, rfl, ht⟩, fun _ => rfl⟩
    · rw [if_neg ht]
      rw [not_not] at ht
      have hnone : ∀ q : String,
          (q = "Connection not found" ∨ q = "Only MySQL is supported for now") →
          (match c (mysqlUrl (conn.username.getD "root") (conn.password.getD "")
              (conn.host.getD "localhost") (conn.port.getD 3306) (conn.database.getD "")) with
            | Except.error e => (Except.error ("Failed to connect to MySQL: " ++ e), st)
            | Except.ok _ =>
              (Except.ok (⟨st.nextId, false⟩ : PoolHandle),
                ⟨insertKV st.pools cid ⟨st.nextId, false⟩, st.nextId + 1⟩)) ≠
            (Except.error q, st) := by
        intro q hq heq
        cases hc : c (mysqlUrl (conn.username.getD "root") (conn.password.getD "")
            (conn.host.getD "localhost") (conn.port.getD 3306) (conn.database.getD "")) with
        | error e2 =>
          rw [hc] at heq
          simp only [Prod.mk.injEq, Except.error.injEq] at heq
          rcases hq with hq | hq <;> subst hq <;>
            exact append_ne_of_head_ne "Failed to connect to MySQL: " e2 _
              (by decide) (by decide) heq.1
        | ok u =>
          rw [hc] at heq
          simp at heq
      refine ⟨?_, ?_⟩
      · constructor
        · intro heq
          exact absurd heq (hnone _ (Or.inl rfl))
        · intro heq
          exact absurd heq (by simp)
      · constructor
        · intro heq
          exact absurd heq (hnone _ (Or.inr rfl))
        · intro ⟨c2, hc2, ht2⟩
          cases hc2
          exact absurd ht ht2

/-- On a miss, the SQLite resolve fails with the profile-not-found /
kind-mismatch messages exactly under the corresponding profile conditions,
leaving the state unchanged. -/
theorem sqlite_miss_errors {p : Int → Option Connection} {c : String → Except String Unit}
    {st : SqliteSt} {cid : Int}
    (hm : ∀ pool, lookupKV st.pools cid = some pool → pool.closed = true) :
    (get_or_create_sqlite_pool p c st cid = (.error "Connection not found", st) ↔
      p cid = none)
    ∧ (get_or_create_sqlite_pool p c st cid =
        (.error "Only SQLite is supported for this operation", st) ↔
      ∃ conn, p cid = some conn ∧ conn.db_type ≠ "sqlite") := by
  have hred : get_or_create_sqlite_pool p c st cid = sqliteCreatePath p c st cid := by
    unfold get_or_create_sqlite_pool
    cases hl : lookupKV st.pools cid with
    | some pool =>
      dsimp only
      rw [hm pool hl]
      rw [if_neg (by simp)]
    | none => rfl
  rw [hred]
  unfold sqliteCreatePath
  cases hp : p cid with
  | none =>
    refine ⟨by simp, ?_⟩
    constructor
    · intro heq
      simp only [Prod.mk.injEq, Except.error.injEq] at heq
      exact absurd heq.1 (by decide)
    · intro ⟨conn, hc, _⟩
      exact absurd hc (by simp)
  | some conn =>
    dsimp only
    by_cases ht : conn.db_type ≠ "sqlite"
    · rw [if_pos ht]
      refine ⟨?_, ?_⟩
      · constructor
        · intro heq
          simp only [Prod.mk.injEq, Except.error.injEq] at heq
          exact absurd heq.1 (by decide)
        · intro heq
          exact absurd heq (by simp)
      · exact ⟨fun _ => ⟨conn, rfl, ht⟩, fun _ => rfl⟩
    · rw [if_neg ht]
      rw [not_not] at ht
      have hnone : ∀ q : String,
          (q = "Connection not found" ∨ q = "Only SQLite is supported for this operation") →
          (match conn.database with
            | none => (Except.error "Database path is required", st)
            | some db_path =>
              match c ("sqlite://" ++ db_path) with
              | Except.error e => (Except.error ("Failed to connect to SQLite: " ++ e), st)
              | Except.ok _ =>
                (Except.ok (⟨st.nextId, false⟩ : PoolHandle),
                  ⟨insertKV st.pools cid ⟨st.nextId, false⟩, st.nextId + 1⟩)) ≠
            (Except.error q, st) := by
        intro q hq heq
        cases hd : conn.database with
        | none =>
          rw [hd] at heq
          simp only [Prod.mk.injEq, Except.error.injEq] at heq
          rcases hq with hq | hq <;> subst hq <;> exact absurd heq.1 (by decide)
        | some db_path =>
          rw [hd] at heq
          dsimp only at heq
          cases hc : c ("sqlite://" ++ db_path) with
          | error e2 =>
            rw [hc] at heq
            simp only [Prod.mk.injEq, Except.error.injEq] at heq
            rcases hq with hq | hq <;> subst hq <;>
              exact append_ne_of_head_ne "Failed to connect to SQLite: " e2 _
                (by decide) (by decide) heq.1
          | ok u =>
            rw [hc] at heq
            simp at heq
      refine ⟨?_, ?_⟩
      · constructor
        · intro heq
          exact absurd heq (hnone _ (Or.inl rfl))
        · intro heq
          exact absurd heq (by simp)
      · constructor
        · intro heq
          exact absurd heq (hnone _ (Or.inr rfl))
        · intro ⟨c2, hc2, ht2⟩
          cases hc2
          exact absurd ht ht2

/-- The memcached connect fails with the profile-not-found / kind-mismatch
messages exactly under the corresponding profile conditions, leaving the
handle counter unchanged (no handle opened).  There is no registry, so
every call is a miss. -/
theorem memcached_errors {p : Int → Option Connection} {c : String → Except String Unit}
    {n : Nat} {cid : Int} :
    (get_or_create_client p c n cid = (.error "Connection not found", n) ↔ p cid = none)
    ∧ (get_or_create_client p c n cid =
        (.error "Only Memcached is supported for this operation", n) ↔
      ∃ conn, p cid = some conn ∧ conn.db_type ≠ "memcached") := by
  unfold get_or_create_client
  cases hp : p cid with
  | none =>
    refine ⟨by simp, ?_⟩
    constructor
    · intro heq
      simp only [Prod.mk.injEq, Except.error.injEq] at heq
      exact absurd heq.1 (by decide)
    · intro ⟨conn, hc, _⟩
      exact absurd hc (by simp)
  | some conn =>
    dsimp only
    by_cases ht : conn.db_type ≠ "memcached"
    · rw [if_pos ht]
      refine ⟨?_, ?_⟩
      · constructor
        · intro heq
          simp only [Prod.mk.injEq, Except.error.injEq] at heq
          exact absurd heq.1 (by decide)
        · intro heq
          exact absurd heq (by simp)
      · exact ⟨fun _ => ⟨conn, rfl, ht⟩, fun _ => rfl⟩
    · rw [if_neg ht]
      rw [not_not] at ht
      have hnone : ∀ q : String,
          (q = "Connection not found" ∨ q = "Only Memcached is supported for this operation") →
          (match c (get_memcached_url conn) with
            | Except.error e => (Except.error ("Failed to connect to Memcached: " ++ e), n)
            | Except.ok _ => (Except.ok n, n + 1)) ≠ (Except.error q, n) := by
        intro q hq heq
        cases hc : c (get_memcached_url conn) with
        | error e2 =>
          rw [hc] at heq
          simp only [Prod.mk.injEq, Except.error.injEq] at heq
          rcases hq with hq | hq <;> subst hq <;>
            exact append_ne_of_head_ne "Failed to connect to Memcached: " e2 _
              (by decide) (by decide) heq.1
        | ok u =>
          rw [hc] at heq
          simp at heq
      refine ⟨?_, ?_⟩
      · constructor
        · intro heq
          exact absurd heq (hnone _ (Or.inl rfl))
        · intro heq
          exact absurd heq (by simp)
      · constructor
        · intro heq
          exact absurd heq (hnone _ (Or.inr rfl))
        · intro ⟨c2, hc2, ht2⟩
          cases hc2
          exact absurd ht ht2

/-- C8.  On a registry miss, each backend's resolve fails with the
profile-not-found error ("Connection not found") exactly when no
connection profile exists for the id, and with the kind-mismatch error
("Only <backend> is supported ...") exactly when the fetched profile's
kind tag differs from the requesting adapter's; in both cases the returned
state equals the input state, so no handle is opened and nothing is
registered. -/
theorem resolve_miss_error_taxonomy :
    (∀ (p : Int → Option Connection) (o : String → Except String Unit) (st : RedisSt)
        (cid : Int) (db : Option Nat),
      (∀ d, db = some d → lookupKV st.clients (redisKey cid d) = none) →
      ((get_or_create_redis_client p o st cid db = (.error "Connection not found", st) ↔
          p cid = none)
        ∧ (get_or_create_redis_client p o st cid db =
            (.error "Only Redis is supported for this operation", st) ↔
          ∃ c, p cid = some c ∧ c.db_type ≠ "redis")))
    ∧ (∀ (p : Int → Option Connection) (c : String → Except String Unit) (st : MysqlSt)
        (cid : Int),
      (∀ pool, lookupKV st.pools cid = some pool → pool.closed = true) →
      ((get_or_create_pool p c st cid = (.error "Connection not found", st) ↔ p cid = none)
        ∧ (get_or_create_pool p c st cid = (.error "Only MySQL is supported for now", st) ↔
          ∃ conn, p cid = some conn ∧ conn.db_type ≠ "mysql")))
    ∧ (∀ (p : Int → Option Connection) (c : String → Except String Unit) (st : SqliteSt)
        (cid : Int),
      (∀ pool, lookupKV st.pools cid = some pool → pool.closed = true) →
      ((get_or_create_sqlite_pool p c st cid = (.error "Connection not found", st) ↔
          p cid = none)
        ∧ (get_or_create_sqlite_pool p c st cid =
            (.error "Only SQLite is supported for this operation", st) ↔
          ∃ conn, p cid = some conn ∧ conn.db_type ≠ "sqlite")))
    ∧ (∀ (p : Int → Option Connection) (c : String → Except String Unit) (n : Nat)
        (cid : Int),
      ((get_or_create_client p c n cid = (.error "Connection not found", n) ↔ p cid = none)
        ∧ (get_or_create_client p c n cid =
            (.error "Only Memcached is supported for this operation", n) ↔
          ∃ conn, p cid = some conn ∧ conn.db_type ≠ "memcached"))) :=
  ⟨fun _ _ _ _ _ hm => redis_miss_errors hm,
   fun _ _ _ _ hm => mysql_miss_errors hm,
   fun _ _ _ _ hm => sqlite_miss_errors hm,
   fun _ _ _ _ => memcached_errors⟩

/-- Witness for C8: on an empty registry, a missing profile yields exactly
the profile-not-found error, and a sqlite-kind profile requested by the
MySQL adapter yields exactly the kind-mismatch error. -/
theorem resolve_miss_error_taxonomy_witness :
    (∀ d : Nat, (none : Option Nat) = some d →
      lookupKV (RedisSt.mk [] 0).clients (redisKey 1 d) = none)
    ∧ get_or_create_redis_client (fun _ => none) (fun _ => .ok ()) ⟨[], 0⟩ 1 none =
        (.error "Connection not found", ⟨[], 0⟩)
    ∧ get_or_create_pool
        (fun i => if i = 1 then
          some ⟨1, "c", "sqlite", none, none, none, none, some "/tmp/a.db"⟩ else none)
        (fun _ => .ok ()) ⟨[], 0⟩ 1 =
        (.error "Only MySQL is supported for now", ⟨[], 0⟩) := by
  refine ⟨fun d hd => Option.noConfusion hd, ?_, ?_⟩
  · exact (resolve_miss_error_taxonomy.1 (fun _ => none) (fun _ => .ok ()) ⟨[], 0⟩ 1 none
      (fun d hd => Option.noConfusion hd)).1.mpr rfl
  · exact ((resolve_miss_error_taxonomy.2.1 : _)
      (fun i => if i = 1 then
        some ⟨1, "c", "sqlite", none, none, none, none, some "/tmp/a.db"⟩ else none)
      (fun _ => .ok ()) ⟨[], 0⟩ 1
      (fun pool hp => by simp [lookupKV] at hp)).2.mpr
      ⟨⟨1, "c", "sqlite", none, none, none, none, some "/tmp/a.db"⟩, rfl, by decide⟩

end XDb
